import Mathlib

/-!
Verification development for the `ptl` legal-drafting backend.

The Python sources are shallowly embedded over `List Char` text. Conventions:

* Text is `List Char`; `cs` converts a Lean string literal to it. `.lower()` /
  `.upper()` are mapped over characters (all vocabulary in the code is ASCII).
* Python `\s`, `\w`, `str.isdigit` etc. are modelled at ASCII precision, which
  covers every string the code manipulates.
* Hand-compiled matchers reproduce each `re` pattern used by the code,
  including alternation order and the greedy/backtracking behaviour of the
  specific patterns (analysed pattern by pattern; where a greedy quantifier is
  followed by a disjoint character class, maximal munch is taken directly).
* SQLite corpora are modelled as explicit lists of rows; `LIKE '%x%'` is
  case-insensitive containment.  Functions of the code that are themselves
  thin wrappers over SQL queries or network calls are environment parameters.
-/

namespace Ptl

/-- Convert a string literal to the `List Char` text representation. -/
def cs (s : String) : List Char := s.data

/-- ASCII lower-casing of a text, modelling Python `str.lower()`. -/
def lowerL (s : List Char) : List Char := s.map Char.toLower

/-- ASCII upper-casing of a text, modelling Python `str.upper()`. -/
def upperL (s : List Char) : List Char := s.map Char.toUpper

/-- Python `\s` (ASCII part): space, tab, newline, CR, FF, VT. -/
def pyIsSpace (c : Char) : Bool :=
  c = ' ' || c = '\t' || c = '\n' || c = '\r' || c = '\x0c' || c = '\x0b'

/-- Python `\w` (ASCII part): letters, digits, underscore. -/
def isWordChar (c : Char) : Bool := c.isAlphanum || c = '_'

/-- Python `str.strip()`: drop leading and trailing whitespace. -/
def stripL (s : List Char) : List Char :=
  ((s.dropWhile pyIsSpace).reverse.dropWhile pyIsSpace).reverse

/-- Substring test: does `needle` occur contiguously inside `hay`? -/
def containsSub (needle hay : List Char) : Bool :=
  needle.isPrefixOf hay ||
    match hay with
    | [] => false
    | _ :: t => containsSub needle t

/-- Case-insensitive containment, modelling SQLite `LIKE '%needle%'`. -/
def likeContains (needle hay : List Char) : Bool :=
  containsSub (lowerL needle) (lowerL hay)

/-- Decimal digits of a natural number, modelling Python `str(n)`. -/
def natChars (n : Nat) : List Char := Nat.toDigits 10 n

/-- Numeric value of a digit string, modelling Python `int(s)` on digits. -/
def natVal (s : List Char) : Nat :=
  s.foldl (fun acc c => 10 * acc + (c.toNat - '0'.toNat)) 0

theorem dropWhile_length_le {α : Type} (p : α → Bool) (l : List α) :
    (l.dropWhile p).length ≤ l.length := by
  induction l with
  | nil => simp [List.dropWhile]
  | cons c t ih =>
    simp only [List.dropWhile]
    split
    · exact Nat.le_succ_of_le ih
    · simp

/-- Split a text on whitespace runs, modelling Python `str.split()`. -/
def splitWS (s : List Char) : List (List Char) :=
  match s with
  | [] => []
  | c :: t =>
    if pyIsSpace c then splitWS t
    else (c :: t.takeWhile (fun d => !pyIsSpace d)) ::
      splitWS (t.dropWhile (fun d => !pyIsSpace d))
termination_by s.length
decreasing_by
  · simp_wf
  · simp_wf
    exact Nat.lt_succ_of_le (dropWhile_length_le _ t)

-- ---------------------------------------------------------------------------
-- law_lookup.py : roman numerals
-- ---------------------------------------------------------------------------

/-- Value table for roman symbols (`_ROMAN_MAP`); 0 for other characters. -/
def romanVal (c : Char) : Int :=
  if c = 'I' then 1 else if c = 'V' then 5 else if c = 'X' then 10
  else if c = 'L' then 50 else if c = 'C' then 100 else if c = 'D' then 500
  else if c = 'M' then 1000 else 0

def isRomanChar (c : Char) : Bool :=
  c = 'I' || c = 'V' || c = 'X' || c = 'L' || c = 'C' || c = 'D' || c = 'M'

/-- The scanning loop of `roman_to_int`: right to left, subtract a value
smaller than the previous symbol's value, otherwise add. -/
def romanFold : List Char → Int × Int
  | [] => (0, 0)
  | c :: t =>
    let (total, prev) := romanFold t
    let v := romanVal c
    if v < prev then (total - v, v) else (total + v, v)

/-- `roman_to_int`: strip/upper, check `[IVXLCDM]+`, fold, positive total. -/
def roman_to_int (s : List Char) : Option Nat :=
  if s = [] then none
  else
    let u := upperL (stripL s)
    if u ≠ [] && u.all isRomanChar then
      let total := (romanFold u).1
      if total > 0 then some total.toNat else none
    else none

/-- The spec's wording of the algorithm: scan right to left, subtract a
symbol whose value is less than the running *maximum* seen so far,
otherwise add it (and the maximum updates).  Stated for comparison with the
code's `prev`-based loop. -/
def romanFoldMax : List Char → Int × Int
  | [] => (0, 0)
  | c :: t =>
    let (total, m) := romanFoldMax t
    let v := romanVal c
    if v < m then (total - v, m) else (total + v, max v m)

def romanToIntSpec (s : List Char) : Option Nat :=
  if s = [] then none
  else
    let u := upperL (stripL s)
    if u ≠ [] && u.all isRomanChar then
      let total := (romanFoldMax u).1
      if total > 0 then some total.toNat else none
    else none

/-- Standard subtractive roman numeral for `n ≤ 59` (tens then ones). -/
def intToRoman (n : Nat) : List Char :=
  let tens := [cs "", cs "X", cs "XX", cs "XXX", cs "XL", cs "L"]
  let ones := [cs "", cs "I", cs "II", cs "III", cs "IV", cs "V", cs "VI",
               cs "VII", cs "VIII", cs "IX"]
  (tens.getD (n / 10) []) ++ (ones.getD (n % 10) [])

-- ---------------------------------------------------------------------------
-- law_lookup.py : normalize_section_number and variants
-- ---------------------------------------------------------------------------

/-- `_compact`: remove every whitespace character. -/
def compactL (s : List Char) : List Char := s.filter (fun c => !pyIsSpace c)

/-- `s.replace(".", "")`. -/
def dedot (s : List Char) : List Char := s.filter (fun c => c ≠ '.')

/-- `re.sub(r"^(\d+)-([A-Za-z])$", r"\1\2", s)`: fuse `489-F` to `489F`. -/
def fuseHyphen (s : List Char) : List Char :=
  match s.reverse with
  | c :: d :: rest =>
    if d = '-' && rest ≠ [] && rest.all Char.isDigit && c.isAlpha then
      rest.reverse ++ [c]
    else s
  | _ => s

/-- `re.fullmatch(r"(\d+)\((\d+)\)", s)`: groups of `12(2)`-shaped input. -/
def parenSplit (s : List Char) : Option (List Char × List Char) :=
  let a := s.takeWhile Char.isDigit
  match s.dropWhile Char.isDigit with
  | '(' :: r2 =>
    let b := r2.takeWhile Char.isDigit
    match r2.dropWhile Char.isDigit with
    | [')'] => if a ≠ [] && b ≠ [] then some (a, b) else none
    | _ => none
  | _ => none

/-- `re.fullmatch(r"(\d+)-(\d+)", s)`. -/
def hyphSplit (s : List Char) : Option (List Char × List Char) :=
  let a := s.takeWhile Char.isDigit
  match s.dropWhile Char.isDigit with
  | '-' :: r2 =>
    if a ≠ [] && r2 ≠ [] && r2.all Char.isDigit then some (a, r2) else none
  | _ => none

/-- `re.fullmatch(r"(\d+)\((II|2)\)", s, IGNORECASE)`: first group. -/
def romanTwoParen (s : List Char) : Option (List Char) :=
  let a := s.takeWhile Char.isDigit
  let r := s.dropWhile Char.isDigit
  if a ≠ [] && (lowerL r = cs "(ii)" || lowerL r = cs "(2)") then some a
  else none

/-- `re.fullmatch(r"(\d+)(II|2)", s, IGNORECASE)`: first group.  The `2`
alternative can only fire on an all-digit input by backtracking one digit;
the `II` alternative needs a digit prefix followed by exactly `ii`. -/
def romanTwoBare (s : List Char) : Option (List Char) :=
  if s.all Char.isDigit then
    if s.length ≥ 2 && s.getLast? = some '2' then some s.dropLast else none
  else
    match s.reverse with
    | c1 :: c2 :: rest =>
      if c1.toLower = 'i' && c2.toLower = 'i' && rest ≠ [] &&
          rest.all Char.isDigit then
        some rest.reverse
      else none
    | _ => none

/-- The branch chain of `normalize_section_number` after compaction. -/
def normTail (s : List Char) : List Char :=
  match parenSplit s with
  | some (a, b) => a ++ '(' :: (b ++ [')'])
  | none =>
    match hyphSplit s with
    | some (a, b) => a ++ '(' :: (b ++ [')'])
    | none =>
      match romanTwoParen s with
      | some a => a ++ '(' :: ('2' :: [')'])
      | none =>
        match romanTwoBare s with
        | some a => a ++ '(' :: ('2' :: [')'])
        | none => s

/-- `normalize_section_number`. -/
def normalize_section_number (raw : List Char) : List Char :=
  if stripL raw = [] then []
  else normTail (fuseHyphen (dedot (compactL (stripL raw))))

/-- Lexicographic (code-point) order on texts, for Python `sorted`. -/
def strLt : List Char → List Char → Bool
  | [], [] => false
  | [], _ :: _ => true
  | _ :: _, [] => false
  | a :: s, b :: t =>
    if a.toNat < b.toNat then true
    else if b.toNat < a.toNat then false
    else strLt s t

def strInsert (x : List Char) : List (List Char) → List (List Char)
  | [] => [x]
  | y :: t => if strLt x y then x :: y :: t else y :: strInsert x t

def strSort : List (List Char) → List (List Char)
  | [] => []
  | x :: t => strInsert x (strSort t)

/-- Set-insert used while building the variant set. -/
def setAdd (x : List Char) (l : List (List Char)) : List (List Char) :=
  if x ∈ l then l else l ++ [x]

/-- `re.fullmatch(r"(\d+)([A-Za-z])", base)`: digits plus one letter. -/
def digitsLetterSplit (s : List Char) : Option (List Char × Char) :=
  let a := s.takeWhile Char.isDigit
  match s.dropWhile Char.isDigit with
  | [c] => if a ≠ [] && c.isAlpha then some (a, c) else none
  | _ => none

/-- `section_variants`: the normalized base plus notation variants, sorted. -/
def section_variants (raw : List Char) : List (List Char) :=
  let base := normalize_section_number raw
  if base = [] then []
  else
    let v1 :=
      match digitsLetterSplit base with
      | some (a, c) =>
        setAdd (a ++ ['-', c.toLower]) (setAdd (a ++ ['-', c.toUpper]) [base])
      | none => [base]
    let v2 :=
      match parenSplit base with
      | some (a, b) =>
        setAdd (a ++ cs "II") (setAdd (a ++ cs "(II)") (setAdd (a ++ '-' :: b) v1))
      | none => v1
    strSort v2

-- ---------------------------------------------------------------------------
-- law_lookup.py : LawLookup (corpus modelled as a list of rows)
-- ---------------------------------------------------------------------------

/-- A row of the `law_sections` table (missing SQL values modelled as `""`). -/
structure DBRow where
  law_name : List Char
  section_number : List Char
  section_title : List Char
  section_text : List Char
  source_file : List Char
deriving DecidableEq

/-- The `LawBlock` dataclass. -/
structure LawBlock where
  law_name : List Char
  kind : List Char
  section_number : List Char
  section_title : List Char
  section_text : List Char
  source_file : List Char
deriving DecidableEq

/-- `LawLookup._law_name_like`, as the needle of a `LIKE '%needle%'` pattern
(the catch-all `"%"` becomes the empty needle, contained in everything). -/
def law_name_like (law_hint : List Char) : List Char :=
  let hint := upperL law_hint
  if hint = cs "CPC" then cs "Civil Procedure"
  else if hint = cs "CRPC" then cs "Criminal Procedure"
  else if hint = cs "PPC" then cs "Penal Code"
  else if hint = cs "CONST" || hint = cs "CONSTITUTION" then cs "Constitution"
  else if hint = cs "QSO" then cs "Shahadat"
  else if hint = cs "MFLO" then cs "Muslim Family Laws"
  else []

/-- One step of the `best`-row loop: keep the row with strictly longer
`section_text`, first-seen wins ties. -/
def bestStep (best : Option DBRow) (row : DBRow) : Option DBRow :=
  match best with
  | none => some row
  | some b =>
    if row.section_text.length > b.section_text.length then some row else some b

/-- Build the returned block for a plain-section hit. -/
def toSectionBlock (r : DBRow) : LawBlock :=
  ⟨r.law_name, cs "section", r.section_number, r.section_title,
   r.section_text, r.source_file⟩

/-- Build the returned block for an order/rule hit. -/
def toOrderRuleBlock (r : DBRow) : LawBlock :=
  ⟨r.law_name, cs "order_rule", r.section_number, r.section_title,
   r.section_text, r.source_file⟩

/-- Number-match test of `find_section`'s in-process loop. -/
def numMatch (wanted : List Char) (variants : List (List Char)) (row : DBRow) :
    Bool :=
  normalize_section_number row.section_number = wanted ||
    row.section_number ∈ variants

/-- The body of `LawLookup.find_section` after the two query-derived values
are computed (SQL prefilter by law name, then the python-side match loop). -/
def findSectionCore (wanted : List Char) (variants : List (List Char))
    (lawPat : List Char) (rows : List DBRow) : Option LawBlock :=
  let pre := rows.filter (fun r => likeContains lawPat r.law_name)
  let best := pre.foldl
    (fun best row => if numMatch wanted variants row then bestStep best row else best)
    none
  best.map toSectionBlock

/-- `LawLookup.find_section`. -/
def find_section (law_hint raw : List Char) (rows : List DBRow) :
    Option LawBlock :=
  if normalize_section_number raw = [] then none
  else
    findSectionCore (normalize_section_number raw) (section_variants raw)
      (law_name_like law_hint) rows

/-- The order/rule co-occurrence test of `find_cpc_order_rule`: the generic
`order`/`rule` markers and the specific `order <N>` / `rule <M>` tokens must
all occur in the lower-cased title or body. -/
def orderRuleCond (o r : Nat) (row : DBRow) : Bool :=
  let title := lowerL row.section_title
  let body := lowerL row.section_text
  (containsSub (cs "order") title || containsSub (cs "order") body) &&
  (containsSub (cs "rule") title || containsSub (cs "rule") body) &&
  (containsSub (cs "order " ++ natChars o) title ||
   containsSub (cs "order " ++ natChars o) body) &&
  (containsSub (cs "rule " ++ natChars r) title ||
   containsSub (cs "rule " ++ natChars r) body)

/-- `LawLookup.find_cpc_order_rule`. -/
def find_cpc_order_rule (o r : Nat) (rows : List DBRow) : Option LawBlock :=
  let pre := rows.filter (fun row => likeContains (cs "Civil Procedure") row.law_name)
  let best := pre.foldl
    (fun best row => if orderRuleCond o r row then bestStep best row else best)
    none
  best.map toOrderRuleBlock

/-- Maximum `section_text` length over a list of rows. -/
def maxTextLen (l : List DBRow) : Nat :=
  l.foldr (fun r m => max r.section_text.length m) 0

/-- A row passes `find_section`'s selection for `(hint, raw)` iff its law name
matches the hint's family pattern and its stored number matches the query. -/
def rowMatches (hint raw : List Char) (r : DBRow) : Bool :=
  likeContains (law_name_like hint) r.law_name &&
    numMatch (normalize_section_number raw) (section_variants raw) r

-- ---------------------------------------------------------------------------
-- Selection-loop lemmas
-- ---------------------------------------------------------------------------

theorem foldl_cond_eq_filter (cond : DBRow → Bool)
    (f : Option DBRow → DBRow → Option DBRow) :
    ∀ (l : List DBRow) (acc : Option DBRow),
      l.foldl (fun b r => if cond r then f b r else b) acc =
        (l.filter cond).foldl f acc := by
  intro l
  induction l with
  | nil => intro acc; rfl
  | cons x t ih =>
    intro acc
    by_cases hx : cond x
    · simp [List.filter_cons, hx, ih]
    · simp [List.filter_cons, hx, ih]

theorem maxTextLen_cons (x : DBRow) (t : List DBRow) :
    maxTextLen (x :: t) = max x.section_text.length (maxTextLen t) := rfl

theorem bestFold_some (l : List DBRow) :
    ∀ b : DBRow,
      l.foldl bestStep (some b) =
        if b.section_text.length < maxTextLen l then
          l.find? (fun r => r.section_text.length == maxTextLen l)
        else some b := by
  induction l with
  | nil =>
    intro b
    simp [maxTextLen]
  | cons x t ih =>
    intro b
    have hstep : bestStep (some b) x =
        some (if x.section_text.length > b.section_text.length then x else b) := by
      simp [bestStep]
      split <;> simp
    rw [List.foldl_cons, hstep]
    by_cases hx : x.section_text.length > b.section_text.length
    · rw [if_pos hx, ih x, maxTextLen_cons]
      by_cases hmt : x.section_text.length < maxTextLen t
      · rw [if_pos hmt, if_pos (by omega)]
        have hmax : max x.section_text.length (maxTextLen t) = maxTextLen t := by omega
        rw [hmax, List.find?_cons_of_neg _ (by simp; omega)]
      · have hmax : max x.section_text.length (maxTextLen t) = x.section_text.length := by
          omega
        rw [if_neg hmt, if_pos (by omega), hmax,
          List.find?_cons_of_pos _ (by simp)]
    · rw [if_neg hx, ih b, maxTextLen_cons]
      by_cases hmb : b.section_text.length < maxTextLen t
      · rw [if_pos hmb, if_pos (by omega)]
        have hmax : max x.section_text.length (maxTextLen t) = maxTextLen t := by omega
        rw [hmax, List.find?_cons_of_neg _ (by simp; omega)]
      · rw [if_neg hmb, if_neg (by omega)]

theorem bestFold_none (l : List DBRow) :
    l.foldl bestStep none =
      l.find? (fun r => r.section_text.length == maxTextLen l) := by
  cases l with
  | nil => rfl
  | cons x t =>
    have : bestStep none x = some x := rfl
    rw [List.foldl_cons, this, bestFold_some, maxTextLen_cons]
    by_cases hmt : x.section_text.length < maxTextLen t
    · rw [if_pos hmt]
      have hmax : max x.section_text.length (maxTextLen t) = maxTextLen t := by omega
      rw [hmax, List.find?_cons_of_neg _ (by simp; omega)]
    · rw [if_neg hmt]
      have hmax : max x.section_text.length (maxTextLen t) = x.section_text.length := by
        omega
      rw [hmax, List.find?_cons_of_pos _ (by simp)]

-- ---------------------------------------------------------------------------
-- Concrete corpora for witnesses and counterexamples
-- ---------------------------------------------------------------------------

/-- Two raw rows for the same logical section, with different text lengths. -/
def crpcRows : List DBRow :=
  [⟨cs "Code of Criminal Procedure 1898", cs "497", cs "Bail", cs "short", cs "a"⟩,
   ⟨cs "Code of Criminal Procedure 1898", cs "497", cs "Bail",
    cs "When any person accused of a non-bailable offence is arrested", cs "b"⟩]

/-- A Penal-Code row whose stored number is `80`. -/
def ppcRow80 : DBRow :=
  ⟨cs "Pakistan Penal Code 1860", cs "80", cs "Accident in doing a lawful act",
   cs "Nothing is an offence which is done by accident or misfortune", cs "p"⟩

-- ---------------------------------------------------------------------------
-- C9: find_section returns the first-seen longest-text matching row
-- ---------------------------------------------------------------------------

/-- C9 (amended): for every law hint and query whose normalized form is
non-empty, `find_section` returns exactly the first-seen row of maximal
`section_text` length among the rows that both match the hint's law-family
name pattern and whose stored number matches the normalized query or its
variant set; `NotFound` is returned precisely when no row matches.  (Two rows
with identical `(law name, section number)` but different text lengths hence
collapse to one result keeping the longer text.) -/
theorem find_section_longest_first (hint raw : List Char) (rows : List DBRow)
    (h : normalize_section_number raw ≠ []) :
    find_section hint raw rows =
      ((rows.filter (rowMatches hint raw)).find?
        (fun r => r.section_text.length ==
          maxTextLen (rows.filter (rowMatches hint raw)))).map toSectionBlock := by
  simp only [find_section, findSectionCore, if_neg h]
  rw [foldl_cond_eq_filter, bestFold_none]
  have hff : (rows.filter
        (fun r => likeContains (law_name_like hint) r.law_name)).filter
        (numMatch (normalize_section_number raw) (section_variants raw)) =
      rows.filter (rowMatches hint raw) := by
    rw [List.filter_filter]
    apply List.filter_congr
    intro r _
    simp [rowMatches, Bool.and_comm]
  rw [hff]

/-- Witness for C9: a two-row corpus holding the same `(law, number)` with
different text lengths collapses to the longer row. -/
theorem find_section_longest_first_witness :
    find_section (cs "CrPC") (cs "497") crpcRows =
      ((crpcRows.filter (rowMatches (cs "CrPC") (cs "497"))).find?
        (fun r => r.section_text.length ==
          maxTextLen (crpcRows.filter (rowMatches (cs "CrPC") (cs "497"))))).map
        toSectionBlock :=
  find_section_longest_first (cs "CrPC") (cs "497") crpcRows (by decide)

/-- C9 (counterexample to the claim as stated): the claim quantifies over all
corpus rows and requires only a number match, but `find_section` also
prefilters by the hint's law-family name.  A Penal-Code row whose stored
number matches the query is matching in the claim's sense, yet a CPC-hinted
lookup returns `NotFound`. -/
theorem find_section_claim_counterexample :
    (normalize_section_number ppcRow80.section_number =
        normalize_section_number (cs "80")) ∧
    ppcRow80.section_text.length > 0 ∧
    find_section (cs "CPC") (cs "80") [ppcRow80] = none := by
  decide

-- ---------------------------------------------------------------------------
-- C2: find_cpc_order_rule requires both order and rule tokens
-- ---------------------------------------------------------------------------

/-- C2: whenever `find_cpc_order_rule o r` returns a row, that row's
lower-cased title or body contains the token `order <o>` and (in the title or
body) the token `rule <r>`; in particular `find_cpc_order_rule 21 26` never
returns a row mentioning only `rule 26` without an `order 21` token. -/
theorem find_cpc_order_rule_both_tokens (o r : Nat) (rows : List DBRow)
    (b : LawBlock) (h : find_cpc_order_rule o r rows = some b) :
    (containsSub (cs "order " ++ natChars o) (lowerL b.section_title) ∨
     containsSub (cs "order " ++ natChars o) (lowerL b.section_text)) ∧
    (containsSub (cs "rule " ++ natChars r) (lowerL b.section_title) ∨
     containsSub (cs "rule " ++ natChars r) (lowerL b.section_text)) := by
  simp only [find_cpc_order_rule] at h
  rw [foldl_cond_eq_filter, bestFold_none] at h
  rcases Option.map_eq_some'.mp h with ⟨row, hfind, hb⟩
  have hmem := List.mem_of_find?_eq_some hfind
  have hcond : orderRuleCond o r row = true :=
    (List.mem_filter.mp hmem).2
  simp only [orderRuleCond, Bool.and_eq_true, Bool.or_eq_true] at hcond
  obtain ⟨⟨⟨-, -⟩, hord⟩, hrul⟩ := hcond
  have htitle : b.section_title = row.section_title := by rw [← hb]; rfl
  have htext : b.section_text = row.section_text := by rw [← hb]; rfl
  rw [htitle, htext]
  exact ⟨hord, hrul⟩

/-- A CPC corpus row whose title carries both tokens. -/
def orRows : List DBRow :=
  [⟨cs "Code of Civil Procedure 1908", cs "O21R26", cs "Order 21 Rule 26",
    cs "Attachment of movable property in execution of decree.", cs "cpc"⟩]

/-- Witness for C2 at `(21, 26)` on a concrete corpus. -/
theorem find_cpc_order_rule_both_tokens_witness :
    (containsSub (cs "order " ++ natChars 21)
        (lowerL (toOrderRuleBlock (orRows.get ⟨0, by decide⟩)).section_title) ∨
     containsSub (cs "order " ++ natChars 21)
        (lowerL (toOrderRuleBlock (orRows.get ⟨0, by decide⟩)).section_text)) ∧
    (containsSub (cs "rule " ++ natChars 26)
        (lowerL (toOrderRuleBlock (orRows.get ⟨0, by decide⟩)).section_title) ∨
     containsSub (cs "rule " ++ natChars 26)
        (lowerL (toOrderRuleBlock (orRows.get ⟨0, by decide⟩)).section_text)) :=
  find_cpc_order_rule_both_tokens 21 26 orRows _ (by decide)

-- ---------------------------------------------------------------------------
-- C4: notation variants of 489-F
-- ---------------------------------------------------------------------------

/-- A corpus storing the fused form `489F`. -/
def fusedRows : List DBRow :=
  [⟨cs "Pakistan Penal Code 1860", cs "489F", cs "Dishonestly issuing a cheque",
    cs "Whoever dishonestly issues a cheque towards repayment of a loan",
    cs "ppc"⟩]

/-- A corpus storing the hyphenated form `489-F`. -/
def hyphRows : List DBRow :=
  [⟨cs "Pakistan Penal Code 1860", cs "489-F", cs "Dishonestly issuing a cheque",
    cs "Whoever dishonestly issues a cheque towards repayment of a loan",
    cs "ppc"⟩]

/-- C4 (counterexample to the claim as stated): `normalize_section_number`
never upper-cases, so `"489f"` does not normalize to the key of `"489-F"`;
and on a corpus storing the fused `489F`, the query `"489-F"` resolves while
`"489f"` returns `NotFound` — the three spellings do not always resolve to
the same row. -/
theorem normalize_489_counterexample :
    normalize_section_number (cs "489f") ≠ normalize_section_number (cs "489-F") ∧
    (find_section (cs "PPC") (cs "489-F") fusedRows).isSome = true ∧
    find_section (cs "PPC") (cs "489f") fusedRows = none := by
  decide

/-- C4 (amended): `"489-F"` and `"489 F"` normalize to the canonical key
`489F` and `find_section` treats them identically on every corpus; `"489f"`
normalizes to the lower-case `489f` (no upper-casing is applied) and agrees
with the other two spellings when the corpus stores the hyphenated `489-F`
(reached through the variant set), though not when it stores the fused form. -/
theorem normalize_489_amended :
    normalize_section_number (cs "489-F") = cs "489F" ∧
    normalize_section_number (cs "489 F") = cs "489F" ∧
    normalize_section_number (cs "489f") = cs "489f" ∧
    (∀ rows : List DBRow,
      find_section (cs "PPC") (cs "489-F") rows =
        find_section (cs "PPC") (cs "489 F") rows) ∧
    find_section (cs "PPC") (cs "489-F") hyphRows =
        find_section (cs "PPC") (cs "489f") hyphRows ∧
    find_section (cs "PPC") (cs "489 F") hyphRows =
        find_section (cs "PPC") (cs "489f") hyphRows ∧
    (find_section (cs "PPC") (cs "489f") hyphRows).isSome = true := by
  refine ⟨by decide, by decide, by decide, ?_, by decide, by decide, by decide⟩
  intro rows
  simp only [find_section]
  rw [show normalize_section_number (cs "489-F") =
        normalize_section_number (cs "489 F") from by decide,
      show section_variants (cs "489-F") = section_variants (cs "489 F") from by
        decide]

-- ---------------------------------------------------------------------------
-- C7: roman numeral round trip, 1..51
-- ---------------------------------------------------------------------------

/-- C7: for every `n` from 1 to 51, `roman_to_int` maps the standard
subtractive-notation numeral of `n` back to `n`, and so does the spec's
running-maximum formulation of the scan (`romanToIntSpec`). -/
theorem roman_conversion_round_trip :
    ∀ n : Nat, 1 ≤ n → n ≤ 51 →
      roman_to_int (intToRoman n) = some n ∧
        romanToIntSpec (intToRoman n) = some n := by
  intro n h1 h2
  have h : ∀ m : Nat, m < 52 → 1 ≤ m →
      (roman_to_int (intToRoman m) = some m ∧
        romanToIntSpec (intToRoman m) = some m) := by decide
  exact h n (by omega) h1

/-- Witness for C7 at the spec's two examples, 39 and 21. -/
theorem roman_conversion_round_trip_witness :
    (roman_to_int (intToRoman 39) = some 39 ∧
      romanToIntSpec (intToRoman 39) = some 39) ∧
    (roman_to_int (intToRoman 21) = some 21 ∧
      romanToIntSpec (intToRoman 21) = some 21) :=
  ⟨roman_conversion_round_trip 39 (by decide) (by decide),
   roman_conversion_round_trip 21 (by decide) (by decide)⟩

-- ---------------------------------------------------------------------------
-- C8: idempotence of normalize_section_number
-- ---------------------------------------------------------------------------

theorem all_takeWhile {p : Char → Bool} :
    ∀ {l : List Char}, ∀ c ∈ l.takeWhile p, p c = true := by
  intro l
  induction l with
  | nil => intro c hc; simp [List.takeWhile] at hc
  | cons x t ih =>
    intro c hc
    simp only [List.takeWhile] at hc
    rcases hp : p x with _ | _
    · rw [hp] at hc; simp at hc
    · rw [hp] at hc
      rcases List.mem_cons.mp hc with h | h
      · rw [h]; exact hp
      · exact ih c h

theorem takeWhile_append_all {p : Char → Bool} {a : List Char}
    (h : ∀ c ∈ a, p c = true) {y : Char} (hy : p y = false) (r : List Char) :
    (a ++ y :: r).takeWhile p = a := by
  induction a with
  | nil => simp [List.takeWhile, hy]
  | cons x t ih =>
    have hx : p x = true := h x (by simp)
    simp only [List.cons_append, List.takeWhile, hx, List.append_eq]
    rw [ih (fun c hc => h c (by simp [hc]))]

theorem dropWhile_append_all {p : Char → Bool} {a : List Char}
    (h : ∀ c ∈ a, p c = true) {y : Char} (hy : p y = false) (r : List Char) :
    (a ++ y :: r).dropWhile p = y :: r := by
  induction a with
  | nil => simp [List.dropWhile, hy]
  | cons x t ih =>
    have hx : p x = true := h x (by simp)
    simp only [List.cons_append, List.dropWhile, hx]
    exact ih (fun c hc => h c (by simp [hc]))

theorem dropWhile_eq_self_of_all {p : Char → Bool} {s : List Char}
    (h : ∀ c ∈ s, p c = false) : s.dropWhile p = s := by
  cases s with
  | nil => rfl
  | cons x t => simp [List.dropWhile, h x (by simp)]

theorem stripL_eq_self {s : List Char}
    (h : ∀ c ∈ s, pyIsSpace c = false) : stripL s = s := by
  unfold stripL
  rw [dropWhile_eq_self_of_all h,
      dropWhile_eq_self_of_all (fun c hc => h c (List.mem_reverse.mp hc)),
      List.reverse_reverse]

theorem compactL_eq_self {s : List Char}
    (h : ∀ c ∈ s, pyIsSpace c = false) : compactL s = s :=
  List.filter_eq_self.mpr (fun c hc => by simp [h c hc])

theorem dedot_eq_self {s : List Char}
    (h : ∀ c ∈ s, c ≠ '.') : dedot s = s :=
  List.filter_eq_self.mpr (fun c hc => by simp [h c hc])

theorem mem_compactL {c : Char} {s : List Char} (h : c ∈ compactL s) :
    c ∈ s ∧ pyIsSpace c = false := by
  have := List.mem_filter.mp h
  exact ⟨this.1, by simpa using this.2⟩

theorem mem_dedot {c : Char} {s : List Char} (h : c ∈ dedot s) :
    c ∈ s ∧ c ≠ '.' := by
  have := List.mem_filter.mp h
  exact ⟨this.1, by simpa using this.2⟩

theorem mem_fuseHyphen {c : Char} {s : List Char} (h : c ∈ fuseHyphen s) :
    c ∈ s := by
  unfold fuseHyphen at h
  split at h
  · next c0 d rest heq =>
    split at h
    · have hrev : c ∈ s.reverse := by
        rw [heq]
        rcases List.mem_append.mp h with h1 | h1
        · simp [List.mem_reverse.mp h1]
        · simp at h1; simp [h1]
      exact List.mem_reverse.mp hrev
    · exact h
  · exact h

theorem fuseHyphen_fixed_of_shape {ds : List Char} {c : Char}
    (hds : ds ≠ []) (hdig : ∀ x ∈ ds, x.isDigit = true) :
    fuseHyphen (ds ++ [c]) = ds ++ [c] := by
  rcases hr : ds.reverse with _ | ⟨d0, rest0⟩
  · exact absurd (by simpa using congrArg List.reverse hr) hds
  · have hrev : (ds ++ [c]).reverse = c :: d0 :: rest0 := by
      rw [List.reverse_append, hr]; rfl
    have hd0 : d0.isDigit = true := by
      apply hdig
      have : d0 ∈ ds.reverse := by rw [hr]; simp
      exact List.mem_reverse.mp this
    have hne : (d0 = '-') = False := by
      simp only [eq_iff_iff, iff_false]
      intro hcontra
      rw [hcontra] at hd0
      simp [Char.isDigit] at hd0
    unfold fuseHyphen
    rw [hrev]
    simp [hne]

theorem fuseHyphen_shape (s : List Char) :
    fuseHyphen s = s ∨
      ∃ ds c, s.reverse = c :: '-' :: ds.reverse ∧ fuseHyphen s = ds ++ [c] ∧
        ds ≠ [] ∧ (∀ x ∈ ds, x.isDigit = true) := by
  unfold fuseHyphen
  split
  · next c0 d rest heq =>
    split
    · next hcond =>
      simp only [Bool.and_eq_true, decide_eq_true_eq, List.all_eq_true] at hcond
      obtain ⟨⟨⟨hd, hrne⟩, hrdig⟩, -⟩ := hcond
      right
      refine ⟨rest.reverse, c0, ?_, rfl, by simpa using hrne, ?_⟩
      · rw [heq, hd, List.reverse_reverse]
      · intro x hx
        exact hrdig x (List.mem_reverse.mp hx)
    · left; rfl
  · left; rfl

theorem fuseHyphen_idem (s : List Char) :
    fuseHyphen (fuseHyphen s) = fuseHyphen s := by
  rcases fuseHyphen_shape s with h | ⟨ds, c, -, hfs, hne, hdig⟩
  · rw [h, h]
  · rw [hfs]
    have : ds.reverse ≠ [] := by simpa using hne
    exact fuseHyphen_fixed_of_shape hne hdig

theorem parenSplit_some {s a b : List Char} (h : parenSplit s = some (a, b)) :
    a ≠ [] ∧ (∀ c ∈ a, c.isDigit = true) ∧ b ≠ [] ∧
      (∀ c ∈ b, c.isDigit = true) := by
  unfold parenSplit at h
  split at h
  · next r2 heq =>
    split at h
    · next heq2 =>
      simp only [] at h
      split at h
      · next hcond =>
        simp only [Option.some.injEq, Prod.mk.injEq] at h
        simp only [Bool.and_eq_true, decide_eq_true_eq] at hcond
        obtain ⟨ha, hb⟩ := hcond
        refine ⟨h.1 ▸ ha, ?_, h.2 ▸ hb, ?_⟩
        · intro c hc; exact all_takeWhile c (h.1 ▸ hc)
        · intro c hc; exact all_takeWhile c (h.2 ▸ hc)
      · exact absurd h (by simp)
    · exact absurd h (by simp)
  · exact absurd h (by simp)

theorem parenSplit_complete {a b : List Char} (ha : a ≠ [])
    (had : ∀ c ∈ a, c.isDigit = true) (hb : b ≠ [])
    (hbd : ∀ c ∈ b, c.isDigit = true) :
    parenSplit (a ++ '(' :: (b ++ [')'])) = some (a, b) := by
  unfold parenSplit
  rw [takeWhile_append_all had (by decide), dropWhile_append_all had (by decide)]
  simp only []
  rw [takeWhile_append_all hbd (by decide), dropWhile_append_all hbd (by decide)]
  simp [ha, hb]

theorem hyphSplit_some {s a b : List Char} (h : hyphSplit s = some (a, b)) :
    a ≠ [] ∧ (∀ c ∈ a, c.isDigit = true) ∧ b ≠ [] ∧
      (∀ c ∈ b, c.isDigit = true) := by
  unfold hyphSplit at h
  split at h
  · next r2 heq =>
    simp only [] at h
    split at h
    · next hcond =>
      simp only [Option.some.injEq, Prod.mk.injEq] at h
      simp only [Bool.and_eq_true, decide_eq_true_eq, List.all_eq_true] at hcond
      obtain ⟨⟨ha, hr⟩, hrd⟩ := hcond
      refine ⟨h.1 ▸ ha, ?_, h.2 ▸ hr, ?_⟩
      · intro c hc; exact all_takeWhile c (h.1 ▸ hc)
      · intro c hc; exact hrd c (h.2 ▸ hc)
    · exact absurd h (by simp)
  · exact absurd h (by simp)

theorem romanTwoParen_some {s a : List Char} (h : romanTwoParen s = some a) :
    a ≠ [] ∧ (∀ c ∈ a, c.isDigit = true) := by
  unfold romanTwoParen at h
  simp only [] at h
  split at h
  · next hcond =>
    simp only [Option.some.injEq] at h
    simp only [Bool.and_eq_true, decide_eq_true_eq] at hcond
    refine ⟨h ▸ hcond.1, ?_⟩
    intro c hc; exact all_takeWhile c (h ▸ hc)
  · exact absurd h (by simp)

theorem mem_dropLast {c : Char} {l : List Char} (h : c ∈ l.dropLast) :
    c ∈ l :=
  List.dropLast_sublist l |>.subset h

theorem romanTwoBare_some {s a : List Char} (h : romanTwoBare s = some a) :
    a ≠ [] ∧ (∀ c ∈ a, c.isDigit = true) := by
  unfold romanTwoBare at h
  split at h
  · next hall =>
    split at h
    · next hcond =>
      simp only [Option.some.injEq] at h
      simp only [Bool.and_eq_true, decide_eq_true_eq] at hcond
      constructor
      · rw [← h]
        intro hcontra
        have := congrArg List.length hcontra
        rw [List.length_dropLast] at this
        simp at this
        omega
      · intro c hc
        rw [← h] at hc
        exact (List.all_eq_true.mp hall) c (mem_dropLast hc)
    · exact absurd h (by simp)
  · split at h
    · next c1 c2 rest heq =>
      split at h
      · next hcond =>
        simp only [Option.some.injEq] at h
        simp only [Bool.and_eq_true, decide_eq_true_eq, List.all_eq_true] at hcond
        obtain ⟨⟨⟨-, -⟩, hrne⟩, hrd⟩ := hcond
        constructor
        · rw [← h]; simpa using hrne
        · intro c hc
          rw [← h] at hc
          exact hrd c (List.mem_reverse.mp hc)
      · exact absurd h (by simp)
    · exact absurd h (by simp)

theorem digit_clean {c : Char} (h : c.isDigit = true) :
    pyIsSpace c = false ∧ c ≠ '.' ∧ c ≠ '-' := by
  refine ⟨?_, ?_, ?_⟩
  · by_contra hsp
    simp only [Bool.not_eq_false] at hsp
    have hne : ¬ pyIsSpace c = true := by
      simp only [pyIsSpace, Bool.or_eq_true, decide_eq_true_eq]
      rintro (((((h1 | h1) | h1) | h1) | h1) | h1) <;>
        (subst h1; exact absurd h (by decide))
    exact hne hsp
  · intro he; subst he; exact absurd h (by decide)
  · intro he; subst he; exact absurd h (by decide)

theorem fuseHyphen_fixed_of_ne {s : List Char} (h : ∀ d ∈ s, d ≠ '-') :
    fuseHyphen s = s := by
  unfold fuseHyphen
  split
  · next c0 d rest heq =>
    have hd : d ∈ s := by
      have : d ∈ s.reverse := by rw [heq]; simp
      exact List.mem_reverse.mp this
    simp [h d hd]
  · rfl

/-- Normalizing a string of the canonical shape `digits(digits)` is identity. -/
theorem normalize_paren_shape {a b : List Char} (ha : a ≠ [])
    (had : ∀ c ∈ a, c.isDigit = true) (hb : b ≠ [])
    (hbd : ∀ c ∈ b, c.isDigit = true) :
    normalize_section_number (a ++ '(' :: (b ++ [')'])) =
      a ++ '(' :: (b ++ [')']) := by
  have hmem : ∀ c ∈ a ++ '(' :: (b ++ [')']),
      pyIsSpace c = false ∧ c ≠ '.' ∧ c ≠ '-' := by
    intro c hc
    rcases List.mem_append.mp hc with h1 | h1
    · exact digit_clean (had c h1)
    · rcases List.mem_cons.mp h1 with h2 | h2
      · subst h2; refine ⟨by decide, by decide, by decide⟩
      · rcases List.mem_append.mp h2 with h3 | h3
        · exact digit_clean (hbd c h3)
        · simp at h3; subst h3; exact ⟨by decide, by decide, by decide⟩
  have hne : a ++ '(' :: (b ++ [')']) ≠ [] := by
    simp [List.append_eq_nil]
  unfold normalize_section_number
  rw [stripL_eq_self (fun c hc => (hmem c hc).1), if_neg hne,
      compactL_eq_self (fun c hc => (hmem c hc).1),
      dedot_eq_self (fun c hc => (hmem c hc).2.1),
      fuseHyphen_fixed_of_ne (fun c hc => (hmem c hc).2.2)]
  unfold normTail
  rw [parenSplit_complete ha had hb hbd]

/-- Normalizing a clean string on which no rewrite rule fires is identity. -/
theorem normalize_fixed_of_clean {t : List Char}
    (hns : ∀ c ∈ t, pyIsSpace c = false) (hnd : ∀ c ∈ t, c ≠ '.')
    (hfuse : fuseHyphen t = t)
    (hp : parenSplit t = none) (hh : hyphSplit t = none)
    (h3 : romanTwoParen t = none) (h4 : romanTwoBare t = none) :
    normalize_section_number t = t := by
  by_cases ht : t = []
  · subst ht; rfl
  · unfold normalize_section_number
    rw [stripL_eq_self hns, if_neg ht, compactL_eq_self hns, dedot_eq_self hnd,
        hfuse]
    unfold normTail
    rw [hp, hh, h3, h4]

/-- C8: section-number normalization is idempotent. -/
theorem normalize_section_number_idem (raw : List Char) :
    normalize_section_number (normalize_section_number raw) =
      normalize_section_number raw := by
  by_cases h0 : stripL raw = []
  · have hz : normalize_section_number raw = [] := by
      unfold normalize_section_number; rw [if_pos h0]
    rw [hz]; rfl
  · have hmain : normalize_section_number raw =
        normTail (fuseHyphen (dedot (compactL (stripL raw)))) := by
      unfold normalize_section_number; rw [if_neg h0]
    set t := fuseHyphen (dedot (compactL (stripL raw))) with ht
    have htns : ∀ c ∈ t, pyIsSpace c = false := by
      intro c hc
      rw [ht] at hc
      exact (mem_compactL (mem_dedot (mem_fuseHyphen hc)).1).2
    have htnd : ∀ c ∈ t, c ≠ '.' := by
      intro c hc
      rw [ht] at hc
      exact (mem_dedot (mem_fuseHyphen hc)).2
    have htfuse : fuseHyphen t = t := by
      rw [ht, fuseHyphen_idem]
    rw [hmain]
    rcases hps : parenSplit t with _ | ⟨a, b⟩
    · rcases hhs : hyphSplit t with _ | ⟨a, b⟩
      · rcases h3 : romanTwoParen t with _ | a
        · rcases h4 : romanTwoBare t with _ | a
          · have hnt : normTail t = t := by
              unfold normTail; rw [hps, hhs, h3, h4]
            rw [hnt]
            exact normalize_fixed_of_clean htns htnd htfuse hps hhs h3 h4
          · have hnt : normTail t = a ++ '(' :: ('2' :: [')']) := by
              unfold normTail; rw [hps, hhs, h3, h4]
            rw [hnt]
            obtain ⟨hane, had⟩ := romanTwoBare_some h4
            exact normalize_paren_shape hane had (b := ['2']) (by simp)
              (by intro c hc; simp at hc; subst hc; decide)
        · have hnt : normTail t = a ++ '(' :: ('2' :: [')']) := by
            unfold normTail; rw [hps, hhs, h3]
          rw [hnt]
          obtain ⟨hane, had⟩ := romanTwoParen_some h3
          exact normalize_paren_shape hane had (b := ['2']) (by simp)
            (by intro c hc; simp at hc; subst hc; decide)
      · have hnt : normTail t = a ++ '(' :: (b ++ [')']) := by
          unfold normTail; rw [hps, hhs]
        rw [hnt]
        obtain ⟨hane, had, hbne, hbd⟩ := hyphSplit_some hhs
        exact normalize_paren_shape hane had hbne hbd
    · have hnt : normTail t = a ++ '(' :: (b ++ [')']) := by
        unfold normTail; rw [hps]
      rw [hnt]
      obtain ⟨hane, had, hbne, hbd⟩ := parenSplit_some hps
      exact normalize_paren_shape hane had hbne hbd

-- ---------------------------------------------------------------------------
-- law_rules.py : deterministic case classifier
-- ---------------------------------------------------------------------------

inductive Confidence where
  | high
  | medium
  | low
  | uncertain
deriving DecidableEq

structure ApplicableSection where
  law_name : List Char
  law_short : List Char
  section_number : List Char
  section_title : List Char
  confidence : Confidence
  reason : List Char
  is_primary : Bool
deriving DecidableEq

/-- `CaseAnalysis` (the `detected_parties` dict is omitted: the code never
writes or reads it beyond its empty default). -/
structure CaseAnalysis where
  case_type : List Char
  sub_type : Option (List Char)
  applicable_sections : List ApplicableSection
  warnings : List (List Char)
  flags_for_review : List (List Char)
  is_government_involved : Bool
  confidence : Confidence
deriving DecidableEq

def addSection (a : CaseAnalysis) (s : ApplicableSection) : CaseAnalysis :=
  ⟨a.case_type, a.sub_type, a.applicable_sections ++ [s], a.warnings,
   a.flags_for_review, a.is_government_involved, a.confidence⟩

def addSections (a : CaseAnalysis) (l : List ApplicableSection) : CaseAnalysis :=
  ⟨a.case_type, a.sub_type, a.applicable_sections ++ l, a.warnings,
   a.flags_for_review, a.is_government_involved, a.confidence⟩

def addWarning (a : CaseAnalysis) (w : List Char) : CaseAnalysis :=
  ⟨a.case_type, a.sub_type, a.applicable_sections, a.warnings ++ [w],
   a.flags_for_review, a.is_government_involved, a.confidence⟩

def addFlag (a : CaseAnalysis) (f : List Char) : CaseAnalysis :=
  ⟨a.case_type, a.sub_type, a.applicable_sections, a.warnings,
   a.flags_for_review ++ [f], a.is_government_involved, a.confidence⟩

def setSubType (a : CaseAnalysis) (t : List Char) : CaseAnalysis :=
  ⟨a.case_type, some t, a.applicable_sections, a.warnings,
   a.flags_for_review, a.is_government_involved, a.confidence⟩

def setConfidence (a : CaseAnalysis) (c : Confidence) : CaseAnalysis :=
  ⟨a.case_type, a.sub_type, a.applicable_sections, a.warnings,
   a.flags_for_review, a.is_government_involved, c⟩

/-- `GOVERNMENT_KEYWORDS` (a python set; iteration order is irrelevant to the
any-keyword-hit detection it feeds). -/
def GOVERNMENT_KEYWORDS : List (List Char) :=
  [cs "government", cs "govt", cs "federal", cs "ministry", cs "minister",
   cs "president", cs "prime minister", cs "pm",
   cs "provincial", cs "chief minister", cs "cm", cs "governor",
   cs "secretary", cs "additional secretary", cs "joint secretary",
   cs "commissioner", cs "deputy commissioner", cs "dc",
   cs "assistant commissioner", cs "ac",
   cs "police", cs "ssp", cs "dsp", cs "dpo", cs "sho", cs "ig", cs "dig",
   cs "inspector general", cs "station house officer",
   cs "wapda", cs "sui gas", cs "sngpl", cs "ssgc", cs "ptcl",
   cs "pakistan railway", cs "railways", cs "pia", cs "pakistan international",
   cs "ogdcl", cs "pso", cs "pakistan state oil",
   cs "pda", cs "lda", cs "cda", cs "kda", cs "rda", cs "fda",
   cs "lahore development", cs "capital development", cs "karachi development",
   cs "rawalpindi development",
   cs "municipal", cs "corporation", cs "metropolitan",
   cs "city council", cs "union council", cs "town committee",
   cs "board of revenue", cs "bor",
   cs "nadra", cs "fbr", cs "secp", cs "nepra", cs "ogra", cs "pemra", cs "pta",
   cs "authority", cs "public authority",
   cs "university", cs "board of education", cs "bise", cs "higher education",
   cs "hec",
   cs "public hospital", cs "government hospital", cs "dho",
   cs "registrar", cs "court", cs "tribunal"]

structure OffensePattern where
  name : List Char
  keywords : List (List Char)
  sections : List (List Char × List Char × List Char)
deriving DecidableEq

/-- `CRIMINAL_PATTERNS`, in source order. -/
def CRIMINAL_PATTERNS : List OffensePattern :=
  [⟨cs "nuisance",
    [cs "nuisance", cs "noise", cs "disturbance", cs "public nuisance",
     cs "loud music"],
    [(cs "PPC", cs "268", cs "Public nuisance"),
     (cs "PPC", cs "290", cs "Punishment for public nuisance")]⟩,
   ⟨cs "cheque_dishonour",
    [cs "cheque", cs "check", cs "dishonour", cs "dishonored", cs "bounced",
     cs "bounce"],
    [(cs "PPC", cs "489-F", cs "Dishonestly issuing a cheque")]⟩,
   ⟨cs "defamation",
    [cs "defamation", cs "defamed", cs "reputation", cs "slander", cs "libel"],
    [(cs "PPC", cs "499", cs "Defamation"),
     (cs "PPC", cs "500", cs "Punishment for defamation")]⟩]

/-- Whole-word match of `kw` at the head of `s` (the right `\b` boundary:
the character after the keyword, if any, must not be a word character; every
government keyword begins and ends in a word character). -/
def wholeWordAt (kw s : List Char) : Bool :=
  kw.isPrefixOf s &&
    (match s.drop kw.length with
     | [] => true
     | c :: _ => !isWordChar c)

/-- Scan for `\b<kw>\b` anywhere in the text, tracking whether the previous
character was a word character (the left `\b` boundary). -/
def wwSearch (kw : List Char) (prevW : Bool) : List Char → Bool
  | [] => false
  | c :: t => (!prevW && wholeWordAt kw (c :: t)) || wwSearch kw (isWordChar c) t

/-- `re.search(r"\b<kw>\b", s)` for a keyword made of word characters. -/
def wholeWordOccurs (kw s : List Char) : Bool := wwSearch kw false s

/-- `LawRulesEngine._detect_government` over the lower-cased facts. -/
def detect_government (facts_lower : List Char) : Bool :=
  GOVERNMENT_KEYWORDS.any (fun kw => wholeWordOccurs kw facts_lower)

/-- `LawRulesEngine._detect_criminal_offenses`: patterns with a keyword
occurring (plain substring) in the lower-cased facts, in table order. -/
def detect_criminal_offenses (facts_lower : List Char) : List OffensePattern :=
  CRIMINAL_PATTERNS.filter (fun p => p.keywords.any (fun kw => containsSub kw facts_lower))

/-- `LawRulesEngine._get_full_law_name`. -/
def get_full_law_name (short : List Char) : List Char :=
  if short = cs "PPC" then cs "Pakistan Penal Code 1860"
  else if short = cs "CrPC" then cs "Code of Criminal Procedure 1898"
  else if short = cs "CPC" then cs "Code of Civil Procedure 1908"
  else if short = cs "Constitution" then cs "Constitution of Pakistan 1973"
  else if short = cs "MFLO" then cs "Muslim Family Laws Ordinance 1961"
  else if short = cs "GWA" then cs "Guardians and Wards Act 1890"
  else short

/-- `str.replace("_", " ")`. -/
def underscoreToSpace (s : List Char) : List Char :=
  s.map (fun c => if c = '_' then ' ' else c)

/-- The supporting cause-of-action sections appended by the legal-notice
analyzer for each detected offense. -/
def offenseSupportSections (facts_lower : List Char) : List ApplicableSection :=
  (detect_criminal_offenses facts_lower).flatMap (fun p =>
    p.sections.map (fun t =>
      ⟨get_full_law_name t.1, t.1, t.2.1, t.2.2, Confidence.medium,
       cs "Possible cause of action: " ++ underscoreToSpace p.name, false⟩))

/-- The Section 80 CPC entry of `_analyze_legal_notice`. -/
def cpc80Entry : ApplicableSection :=
  ⟨cs "Code of Civil Procedure 1908", cs "CPC", cs "80", cs "Notice",
   Confidence.high,
   cs "Notice to Government/Public Authority - Section 80 CPC mandatory", true⟩

def privatePartyFlag : List Char :=
  cs "PRIVATE PARTY dispute: Section 80 CPC does NOT apply. Do NOT cite CPC 80."

/-- `LawRulesEngine._analyze_legal_notice`. -/
def analyze_legal_notice (a : CaseAnalysis) (facts_lower : List Char) :
    CaseAnalysis :=
  let a1 :=
    if a.is_government_involved then
      addWarning (addSection a cpc80Entry)
        (cs "Two months' notice period required before filing suit against Government")
    else addFlag a privatePartyFlag
  addSections a1 (offenseSupportSections facts_lower)

/-- `LawRulesEngine._analyze_writ`. -/
def analyze_writ (a : CaseAnalysis) : CaseAnalysis :=
  setSubType
    (addSection a
      ⟨cs "Constitution of Pakistan 1973", cs "Constitution", cs "199",
       cs "Jurisdiction of High Court", Confidence.high,
       cs "High Court writ jurisdiction", true⟩)
    (cs "general_writ")

/-- `LawRulesEngine._analyze_bail`. -/
def analyze_bail (a : CaseAnalysis) (facts_lower cat_lower : List Char) :
    CaseAnalysis :=
  if containsSub (cs "pre-arrest") facts_lower ||
     containsSub (cs "pre arrest") facts_lower ||
     containsSub (cs "anticipatory") facts_lower ||
     containsSub (cs "pre-arrest") cat_lower ||
     containsSub (cs "pre arrest") cat_lower ||
     containsSub (cs "anticipatory") cat_lower then
    addSection a
      ⟨cs "Code of Criminal Procedure 1898", cs "CrPC", cs "498",
       cs "Power to direct admission to bail", Confidence.high,
       cs "Pre-arrest/anticipatory bail", true⟩
  else
    addSection
      (addSection a
        ⟨cs "Code of Criminal Procedure 1898", cs "CrPC", cs "497",
         cs "When bail may be taken in case of non-bailable offence",
         Confidence.high, cs "Post-arrest bail", true⟩)
      ⟨cs "Code of Criminal Procedure 1898", cs "CrPC", cs "498",
       cs "Power to direct admission to bail", Confidence.medium,
       cs "Supplementary bail discretion (post-arrest)", false⟩

/-- `LawRulesEngine._analyze_recovery`. -/
def analyze_recovery (a : CaseAnalysis) : CaseAnalysis :=
  addSection a
    ⟨cs "Code of Civil Procedure 1908", cs "CPC", cs "9",
     cs "Courts to try all civil suits unless barred", Confidence.medium,
     cs "Civil recovery jurisdiction", true⟩

/-- `LawRulesEngine._analyze_divorce`. -/
def analyze_divorce (a : CaseAnalysis) : CaseAnalysis :=
  addSection a
    ⟨cs "Muslim Family Laws Ordinance 1961", cs "MFLO", cs "7", cs "Talaq",
     Confidence.medium, cs "Divorce/Talaq procedure", true⟩

/-- `LawRulesEngine._analyze_custody`. -/
def analyze_custody (a : CaseAnalysis) : CaseAnalysis :=
  addSection
    (addSection
      (addSection a
        ⟨cs "Guardians and Wards Act 1890", cs "GWA", cs "7",
         cs "Power of the court to make order as to guardianship",
         Confidence.medium, cs "Child custody petition", true⟩)
      ⟨cs "Guardians and Wards Act 1890", cs "GWA", cs "17",
       cs "Matters to be considered by the court in appointing guardian",
       Confidence.medium, cs "Custody factors and welfare assessment", false⟩)
    ⟨cs "Guardians and Wards Act 1890", cs "GWA", cs "25",
     cs "Title of guardian to custody of ward", Confidence.medium,
     cs "Custody enforcement", false⟩

/-- `LawRulesEngine._analyze_quashing_fir`. -/
def analyze_quashing_fir (a : CaseAnalysis) : CaseAnalysis :=
  addSection
    (addSection a
      ⟨cs "Code of Criminal Procedure 1898", cs "CrPC", cs "561-A",
       cs "Inherent powers of High Court", Confidence.medium,
       cs "Quashing FIR (inherent powers)", true⟩)
    ⟨cs "Constitution of Pakistan 1973", cs "Constitution", cs "199",
     cs "Jurisdiction of High Court", Confidence.medium,
     cs "Constitutional jurisdiction for quashing relief", false⟩

/-- `LawRulesEngine._analyze_stay`. -/
def analyze_stay (a : CaseAnalysis) : CaseAnalysis :=
  addSection a
    ⟨cs "Code of Civil Procedure 1908", cs "CPC", cs "151",
     cs "Saving of inherent powers of Court", Confidence.medium,
     cs "Stay application", true⟩

/-- `LawRulesEngine._add_sections_from_pattern`. -/
def add_sections_from_pattern (a : CaseAnalysis) (key : List Char)
    (primary : Bool) : CaseAnalysis :=
  match CRIMINAL_PATTERNS.find? (fun p => p.name = key) with
  | none => a
  | some p =>
    addSections a
      (p.sections.map (fun t =>
        ⟨get_full_law_name t.1, t.1, t.2.1, t.2.2, Confidence.high,
         cs "Detected offense: " ++ underscoreToSpace key, primary⟩))

/-- `LawRulesEngine._analyze_general`. -/
def analyze_general (a : CaseAnalysis) (facts_lower : List Char) :
    CaseAnalysis :=
  match detect_criminal_offenses facts_lower with
  | [] =>
    setConfidence
      (addFlag a
        (cs "Could not automatically determine applicable sections. Manual review required."))
      Confidence.uncertain
  | offenses =>
    addSections a
      (offenses.flatMap (fun p =>
        p.sections.map (fun t =>
          ⟨get_full_law_name t.1, t.1, t.2.1, t.2.2, Confidence.medium,
           cs "Detected from facts: " ++ underscoreToSpace p.name, true⟩)))

/-- `LawRulesEngine.analyze_case`. -/
def analyze_case (category facts : List Char) : CaseAnalysis :=
  let facts_lower := lowerL facts
  let a0 : CaseAnalysis :=
    ⟨category, none, [], [], [], detect_government facts_lower, Confidence.high⟩
  let cat := lowerL category
  if containsSub (cs "notice") cat then analyze_legal_notice a0 facts_lower
  else if containsSub (cs "writ") cat then analyze_writ a0
  else if containsSub (cs "bail") cat then analyze_bail a0 facts_lower cat
  else if containsSub (cs "recovery") cat then analyze_recovery a0
  else if containsSub (cs "divorce") cat || containsSub (cs "talaq") cat ||
      containsSub (cs "khula") cat then analyze_divorce a0
  else if containsSub (cs "custody") cat || containsSub (cs "hizanat") cat then
    analyze_custody a0
  else if containsSub (cs "quashing") cat || containsSub (cs "fir") cat then
    analyze_quashing_fir a0
  else if containsSub (cs "stay") cat then analyze_stay a0
  else if containsSub (cs "cheque") cat || containsSub (cs "dishonour") cat then
    add_sections_from_pattern a0 (cs "cheque_dishonour") true
  else analyze_general a0 facts_lower

-- ---------------------------------------------------------------------------
-- C1: government detection controls the Section 80 CPC notice provision
-- ---------------------------------------------------------------------------

theorem offenseSupport_law_short (f : List Char) :
    ∀ s ∈ offenseSupportSections f, s.law_short = cs "PPC" := by
  intro s hs
  simp only [offenseSupportSections, List.mem_flatMap] at hs
  obtain ⟨p, hp, hs⟩ := hs
  have hpmem : p ∈ CRIMINAL_PATTERNS :=
    (List.mem_filter.mp hp).1
  simp only [List.mem_map] at hs
  obtain ⟨t, ht, rfl⟩ := hs
  have hall : ∀ q ∈ CRIMINAL_PATTERNS, ∀ u ∈ q.sections, u.1 = cs "PPC" := by
    decide
  exact hall p hpmem t ht

/-- C1: on a category containing `notice`, `analyze_case` of facts whose
lower-cased form contains a government-vocabulary keyword as a whole word
reports government involvement and cites Section 80 CPC; with no such
keyword it reports no government involvement, cites no Section 80 CPC, and
raises the explicit do-not-cite review flag. -/
theorem analyze_case_notice_gov (category facts : List Char)
    (hcat : containsSub (cs "notice") (lowerL category) = true) :
    ((∃ kw ∈ GOVERNMENT_KEYWORDS, wholeWordOccurs kw (lowerL facts) = true) →
      (analyze_case category facts).is_government_involved = true ∧
      ∃ s ∈ (analyze_case category facts).applicable_sections,
        s.law_short = cs "CPC" ∧ s.section_number = cs "80") ∧
    ((∀ kw ∈ GOVERNMENT_KEYWORDS, wholeWordOccurs kw (lowerL facts) = false) →
      (analyze_case category facts).is_government_involved = false ∧
      (∀ s ∈ (analyze_case category facts).applicable_sections,
        ¬(s.law_short = cs "CPC" ∧ s.section_number = cs "80")) ∧
      privatePartyFlag ∈ (analyze_case category facts).flags_for_review) := by
  have hdisp : analyze_case category facts =
      analyze_legal_notice
        ⟨category, none, [], [], [], detect_government (lowerL facts),
         Confidence.high⟩
        (lowerL facts) := by
    simp only [analyze_case]
    rw [if_pos hcat]
  constructor
  · rintro ⟨kw, hkw, hww⟩
    have hgov : detect_government (lowerL facts) = true := by
      simp only [detect_government, List.any_eq_true]
      exact ⟨kw, hkw, hww⟩
    rw [hdisp]
    simp only [analyze_legal_notice, hgov, if_pos]
    refine ⟨rfl, cpc80Entry, ?_, rfl, rfl⟩
    simp [addSections, addWarning, addSection]
  · intro hall
    have hgov : detect_government (lowerL facts) = false := by
      simp only [detect_government, List.any_eq_false]
      intro kw hkw
      simp [hall kw hkw]
    rw [hdisp]
    simp only [analyze_legal_notice, hgov, Bool.false_eq_true, if_false]
    refine ⟨rfl, ?_, ?_⟩
    · intro s hs hcontra
      simp only [addSections, addFlag, List.nil_append] at hs
      have := offenseSupport_law_short (lowerL facts) s hs
      rw [hcontra.1] at this
      exact absurd this (by decide)
    · simp [addSections, addFlag]

/-- Facts mentioning WAPDA (a government keyword) as a whole word. -/
def factsGov : List Char := cs "my client wants to sue wapda for overbilling"

/-- Facts with no government vocabulary (but a nuisance offense keyword). -/
def factsPriv : List Char :=
  cs "my client wants to warn his neighbour about loud noise"

/-- Witness for C1: both directions at concrete notice requests. -/
theorem analyze_case_notice_gov_witness :
    ((analyze_case (cs "Legal Notice") factsGov).is_government_involved = true ∧
      ∃ s ∈ (analyze_case (cs "Legal Notice") factsGov).applicable_sections,
        s.law_short = cs "CPC" ∧ s.section_number = cs "80") ∧
    ((analyze_case (cs "Legal Notice") factsPriv).is_government_involved = false ∧
      (∀ s ∈ (analyze_case (cs "Legal Notice") factsPriv).applicable_sections,
        ¬(s.law_short = cs "CPC" ∧ s.section_number = cs "80")) ∧
      privatePartyFlag ∈
        (analyze_case (cs "Legal Notice") factsPriv).flags_for_review) :=
  ⟨(analyze_case_notice_gov (cs "Legal Notice") factsGov (by decide)).1
      (by decide),
   (analyze_case_notice_gov (cs "Legal Notice") factsPriv (by decide)).2
      (by decide)⟩

-- ---------------------------------------------------------------------------
-- Regex-matcher infrastructure (hand-compiled patterns)
-- ---------------------------------------------------------------------------

/-- Consume a literal case-insensitively; return the rest on success. -/
def litCI : List Char → List Char → Option (List Char)
  | [], s => some s
  | _, [] => none
  | p :: ps, c :: t => if c.toLower = p.toLower then litCI ps t else none

/-- `(takeWhile isDigit, dropWhile isDigit)`. -/
def spanDigits (s : List Char) : List Char × List Char :=
  (s.takeWhile Char.isDigit, s.dropWhile Char.isDigit)

/-- Right word boundary `\b` after a word character: next char absent or
not a word character. -/
def wordBoundaryOK (s : List Char) : Bool :=
  match s with
  | [] => true
  | c :: _ => !isWordChar c

/-- `\s+` followed by greedy collapse (safe: every use site is followed by a
non-space token). -/
def ws1 (s : List Char) : Option (List Char) :=
  match s with
  | c :: t => if pyIsSpace c then some (t.dropWhile pyIsSpace) else none
  | [] => none

/-- `\s*` (greedy, safe at every use site). -/
def wsMany (s : List Char) : List Char := s.dropWhile pyIsSpace

/-- `\.?` with backtracking into the continuation. -/
def optDot {A : Type} (s : List Char) (k : List Char → Option A) : Option A :=
  match s with
  | '.' :: t =>
    match k t with
    | some a => some a
    | none => k s
  | _ => k s

/-- `([0-9]+|[IVXLCDM]+)` (IGNORECASE): deterministic on the first char, and
maximal munch is exact because every use site is followed by a token that is
neither a digit nor a roman letter. -/
def numOrRoman (s : List Char) : Option (List Char × List Char) :=
  match s with
  | [] => none
  | c :: _ =>
    if c.isDigit then some (spanDigits s)
    else if isRomanChar c.toUpper then
      some (s.takeWhile (fun d => isRomanChar d.toUpper),
            s.dropWhile (fun d => isRomanChar d.toUpper))
    else none

/-- The tail `\s*(CPC)?\b` of the two order/rule patterns (the group just
before it always ends in a word character).  Spacing amounts are tried
longest-first, per spacing first with `CPC` then without, reproducing the
greedy/backtracking order of the engine. -/
def orTail (s : List Char) : Option (List Char) :=
  let m := (s.takeWhile pyIsSpace).length
  (List.range (m + 1)).reverse.findSome? (fun k =>
    let rest := s.drop k
    let bare : Option (List Char) :=
      if k = 0 then (if wordBoundaryOK rest then some rest else none)
      else
        match rest with
        | c :: _ => if isWordChar c then some rest else none
        | [] => none
    match litCI (cs "cpc") rest with
    | some r2 => if wordBoundaryOK r2 then some r2 else bare
    | none => bare)

/-- Scan for all non-overlapping matches left to right (`re.finditer`),
tracking whether the previous character is a word character so matchers can
check a leading `\b`.  Fuel is the text length plus one: every step either
advances one character or consumes a non-empty match. -/
def scanPrev {G : Type} (matchAt : Bool → List Char → Option (G × List Char)) :
    Nat → Bool → List Char → List G
  | 0, _, _ => []
  | _ + 1, _, [] => []
  | fuel + 1, prevW, c :: t =>
    match matchAt prevW (c :: t) with
    | some (g, rest) =>
      let consumed := (c :: t).take ((c :: t).length - rest.length)
      let prevW2 :=
        match consumed.getLast? with
        | some d => isWordChar d
        | none => prevW
      g :: scanPrev matchAt fuel prevW2 rest
    | none => scanPrev matchAt fuel (isWordChar c) t

def findIterPrev {G : Type}
    (matchAt : Bool → List Char → Option (G × List Char)) (s : List Char) :
    List G :=
  scanPrev matchAt (s.length + 1) false s

-- ---------------------------------------------------------------------------
-- law_lookup.py : parse_procedural_refs
-- ---------------------------------------------------------------------------

/-- The `ProcRef` dataclass. -/
structure ProcRef where
  law_hint : List Char
  kind : List Char
  number : List Char
  order_no : Option Nat
  rule_no : Option Nat
deriving DecidableEq

/-- `\bOrder\s+(\d+|[IVXLCDM]+)\s+Rule\s+(\d+|[IVXLCDM]+)\s*(CPC)?\b`. -/
def matchOrderRule1 (prevW : Bool) (s : List Char) :
    Option ((List Char × List Char) × List Char) :=
  if prevW then none
  else
    (litCI (cs "order") s).bind (fun r1 =>
    (ws1 r1).bind (fun r2 =>
    (numOrRoman r2).bind (fun g1r =>
    (ws1 g1r.2).bind (fun r4 =>
    (litCI (cs "rule") r4).bind (fun r5 =>
    (ws1 r5).bind (fun r6 =>
    (numOrRoman r6).bind (fun g2r =>
    (orTail g2r.2).map (fun r8 => ((g1r.1, g2r.1), r8)))))))))

/-- `\bO\.?\s*(\d+|[IVXLCDM]+)\s*R\.?\s*(\d+|[IVXLCDM]+)\s*(CPC)?\b`. -/
def matchOrderRule2 (prevW : Bool) (s : List Char) :
    Option ((List Char × List Char) × List Char) :=
  if prevW then none
  else
    (litCI (cs "o") s).bind (fun r1 =>
    optDot r1 (fun r2 =>
    (numOrRoman (wsMany r2)).bind (fun g1r =>
    (litCI (cs "r") (wsMany g1r.2)).bind (fun r5 =>
    optDot r5 (fun r6 =>
    (numOrRoman (wsMany r6)).bind (fun g2r =>
    (orTail g2r.2).map (fun r8 => ((g1r.1, g2r.1), r8))))))))

/-- Keyword alternatives `u/s | under\s+section | section | s\.` of the
section pattern, as the ordered list of candidate rests. -/
def secKwRests (s : List Char) : List (List Char) :=
  (match litCI (cs "u/s") s with
   | some r => [r]
   | none => []) ++
  (match litCI (cs "under") s with
   | some r1 =>
     (match ws1 r1 with
      | some r2 =>
        (match litCI (cs "section") r2 with
         | some r3 => [r3]
         | none => [])
      | none => [])
   | none => []) ++
  (match litCI (cs "section") s with
   | some r => [r]
   | none => []) ++
  (match litCI (cs "s.") s with
   | some r => [r]
   | none => [])

/-- Number group `[0-9]+(?:\([0-9]+\)|[A-Za-z]|-[A-Za-z]|-F|F|II)?` of the
section pattern: candidate `(group, rest)` pairs in backtracking order
(suffix alternatives in pattern order, then the empty suffix). -/
def secNumCands (s : List Char) : List (List Char × List Char) :=
  match spanDigits s with
  | ([], _) => []
  | (d, r) =>
    (match r with
     | '(' :: r2 =>
       (match spanDigits r2 with
        | ([], _) => []
        | (d2, r3) =>
          match r3 with
          | ')' :: r4 => [(d ++ '(' :: (d2 ++ [')']), r4)]
          | _ => [])
     | _ => []) ++
    (match r with
     | c :: t => if c.isAlpha then [(d ++ [c], t)] else []
     | [] => []) ++
    (match r with
     | '-' :: c :: t => if c.isAlpha then [(d ++ '-' :: [c], t)] else []
     | _ => []) ++
    (match r with
     | '-' :: c :: t => if c.toLower = 'f' then [(d ++ '-' :: [c], t)] else []
     | _ => []) ++
    (match r with
     | c :: t => if c.toLower = 'f' then [(d ++ [c], t)] else []
     | [] => []) ++
    (match r with
     | c1 :: c2 :: t =>
       if c1.toLower = 'i' && c2.toLower = 'i' then [(d ++ [c1, c2], t)]
       else []
     | _ => []) ++
    [(d, r)]

/-- Ordered law alternation with trailing `\b`: first alternative that
matches with a word boundary after it wins (so `CONST` loses to
`CONSTITUTION` on the full word). -/
def matchLawTok (cands : List (List Char)) (s : List Char) :
    Option (List Char × List Char) :=
  cands.findSome? (fun cand =>
    match litCI cand s with
    | some r => if wordBoundaryOK r then some (cand, r) else none
    | none => none)

/-- `_SECTION_PATTERNS[0]`: keyword, number group, law token. -/
def matchSection1 (prevW : Bool) (s : List Char) :
    Option ((List Char × List Char) × List Char) :=
  if prevW then none
  else
    (secKwRests s).findSome? (fun r1 =>
      (secNumCands (wsMany r1)).findSome? (fun g1r =>
        (matchLawTok
            [cs "cpc", cs "crpc", cs "ppc", cs "const", cs "constitution",
             cs "qso", cs "mflo"]
            (wsMany g1r.2)).map (fun lawr => ((g1r.1, lawr.1), lawr.2))))

/-- `_SECTION_PATTERNS[1]`: `\b(?:article|art\.)\s*([0-9]+[A-Za-z]?)\s*(CONSTITUTION|CONST)\b`. -/
def matchArticle (prevW : Bool) (s : List Char) :
    Option ((List Char × List Char) × List Char) :=
  if prevW then none
  else
    let kwRests : List (List Char) :=
      (match litCI (cs "article") s with
       | some r => [r]
       | none => []) ++
      (match litCI (cs "art.") s with
       | some r => [r]
       | none => [])
    kwRests.findSome? (fun r1 =>
      match spanDigits (wsMany r1) with
      | ([], _) => none
      | (d, r3) =>
        let tryLaw := fun (g1 : List Char) (r : List Char) =>
          (matchLawTok [cs "constitution", cs "const"] (wsMany r)).map
            (fun lawr => ((g1, lawr.1), lawr.2))
        match r3 with
        | c :: t =>
          if c.isAlpha then
            match tryLaw (d ++ [c]) t with
            | some a => some a
            | none => tryLaw d r3
          else tryLaw d r3
        | [] => tryLaw d r3)

/-- `int(s)` when `s.isdigit()`, else `roman_to_int`. -/
def romanOrIntVal (s : List Char) : Option Nat :=
  if s ≠ [] && s.all Char.isDigit then some (natVal s) else roman_to_int s

/-- The order/rule references of a text, both patterns in source order. -/
def orderRuleRefs (t : List Char) : List ProcRef :=
  (findIterPrev matchOrderRule1 t ++ findIterPrev matchOrderRule2 t).filterMap
    (fun g =>
      match romanOrIntVal (stripL g.1), romanOrIntVal (stripL g.2) with
      | some o, some r =>
        if o > 0 && r > 0 then
          some ⟨cs "CPC", cs "order_rule", [], some o, some r⟩
        else none
      | _, _ => none)

/-- Map a lower-cased law token to the stored hint (`.upper()`, with
`CONSTITUTION` collapsed to `CONST`). -/
def lawTokToHint (law : List Char) : List Char :=
  if upperL law = cs "CONSTITUTION" then cs "CONST" else upperL law

/-- The plain-section references of a text. -/
def sectionRefs (t : List Char) : List ProcRef :=
  (findIterPrev matchSection1 t).map (fun g =>
    ⟨lawTokToHint g.2, cs "section", stripL g.1, none, none⟩)

/-- The article references of a text. -/
def articleRefs (t : List Char) : List ProcRef :=
  (findIterPrev matchArticle t).map (fun g =>
    ⟨lawTokToHint g.2, cs "section", stripL g.1, none, none⟩)

/-- The dedup key of `parse_procedural_refs`. -/
def refKey (r : ProcRef) :
    List Char × List Char × List Char × Option Nat × Option Nat :=
  (r.law_hint, r.kind, normalize_section_number r.number, r.order_no, r.rule_no)

def dedupGo (seen : List (List Char × List Char × List Char × Option Nat × Option Nat)) :
    List ProcRef → List ProcRef
  | [] => []
  | r :: t =>
    if refKey r ∈ seen then dedupGo seen t
    else r :: dedupGo (refKey r :: seen) t

/-- `parse_procedural_refs`: all order/rule matches, then all section
matches, then all article matches, stably deduplicated by key. -/
def parse_procedural_refs (t : List Char) : List ProcRef :=
  dedupGo [] (orderRuleRefs t ++ sectionRefs t ++ articleRefs t)

-- ---------------------------------------------------------------------------
-- C6: dedup and ordering of parse_procedural_refs
-- ---------------------------------------------------------------------------

theorem dedupGo_sublist :
    ∀ (l : List ProcRef) (seen), List.Sublist (dedupGo seen l) l := by
  intro l
  induction l with
  | nil => intro seen; simp [dedupGo]
  | cons r t ih =>
    intro seen
    unfold dedupGo
    split
    · exact (ih seen).cons r
    · exact (ih _).cons₂ r

theorem dedupGo_keys :
    ∀ (l : List ProcRef) (seen),
      ((dedupGo seen l).map refKey).Nodup ∧
        ∀ k ∈ (dedupGo seen l).map refKey, k ∉ seen := by
  intro l
  induction l with
  | nil => intro seen; simp [dedupGo]
  | cons r t ih =>
    intro seen
    unfold dedupGo
    split
    · exact ih seen
    · next hnot =>
      obtain ⟨hnd, hns⟩ := ih (refKey r :: seen)
      refine ⟨?_, ?_⟩
      · simp only [List.map_cons, List.nodup_cons]
        refine ⟨?_, hnd⟩
        intro hmem
        exact hns _ hmem (by simp)
      · intro k hk
        simp only [List.map_cons, List.mem_cons] at hk
        rcases hk with rfl | hk
        · exact hnot
        · intro hseen
          exact hns k hk (by simp [hseen])

theorem dedupGo_complete :
    ∀ (l : List ProcRef) (seen), ∀ r ∈ l,
      refKey r ∈ seen ∨ refKey r ∈ (dedupGo seen l).map refKey := by
  intro l
  induction l with
  | nil => intro seen r hr; simp at hr
  | cons x t ih =>
    intro seen r hr
    unfold dedupGo
    rcases List.mem_cons.mp hr with rfl | hr
    · split
      · next hmem => exact Or.inl hmem
      · right; simp
    · split
      · exact ih seen r hr
      · rcases ih (refKey x :: seen) r hr with hl | hrr
        · rcases List.mem_cons.mp hl with heq | hl
          · right; simp [heq]
          · exact Or.inl hl
        · right; simp only [List.map_cons, List.mem_cons]; exact Or.inr hrr

/-- C6 (amended): the output of `parse_procedural_refs` carries pairwise
distinct `(law hint, kind, normalized number, order, rule)` keys, keeps the
relative order of the scanned match list — all order/rule matches (in text
order), then all section-pattern matches, then all article-pattern matches
— and drops only duplicates: every scanned reference's key appears in the
output.  Text order is preserved within each pattern group, not across
groups. -/
theorem parse_procedural_refs_dedup (t : List Char) :
    ((parse_procedural_refs t).map refKey).Nodup ∧
    List.Sublist (parse_procedural_refs t)
      (orderRuleRefs t ++ sectionRefs t ++ articleRefs t) ∧
    ∀ r ∈ orderRuleRefs t ++ sectionRefs t ++ articleRefs t,
      refKey r ∈ (parse_procedural_refs t).map refKey := by
  refine ⟨(dedupGo_keys _ []).1, dedupGo_sublist _ [], ?_⟩
  intro r hr
  rcases dedupGo_complete _ [] r hr with h | h
  · simp at h
  · exact h

/-- C6 (counterexample to the claim as stated): in
`"u/s 302 PPC and Order 21 Rule 26 CPC"` the section citation `u/s 302 PPC`
is the leading prefix of the text, yet the parser lists the later order/rule
reference first — first-appearance order is not preserved across reference
kinds. -/
theorem parse_procedural_refs_order_counterexample :
    parse_procedural_refs (cs "u/s 302 PPC and Order 21 Rule 26 CPC") =
      [⟨cs "CPC", cs "order_rule", [], some 21, some 26⟩,
       ⟨cs "PPC", cs "section", cs "302", none, none⟩] ∧
    (cs "u/s 302 PPC").isPrefixOf
      (cs "u/s 302 PPC and Order 21 Rule 26 CPC") = true := by
  decide

-- ---------------------------------------------------------------------------
-- section_validator.py : citation extraction
-- ---------------------------------------------------------------------------

/-- `re.finditer` scan without word-boundary tracking (for patterns with no
`\b`). -/
def scanAll {G : Type} (matchAt : List Char → Option (G × List Char)) :
    Nat → List Char → List G
  | 0, _ => []
  | _ + 1, [] => []
  | fuel + 1, c :: t =>
    match matchAt (c :: t) with
    | some (g, rest) => g :: scanAll matchAt fuel rest
    | none => scanAll matchAt fuel t

def findIter {G : Type} (matchAt : List Char → Option (G × List Char))
    (s : List Char) : List G :=
  scanAll matchAt (s.length + 1) s

/-- A literal token alternative, returning `(matched slice, rest)`. -/
def litTok (pat s : List Char) : Option (List Char × List Char) :=
  (litCI pat s).map (fun r => (s.take pat.length, r))

/-- Letter segments separated by optional dots (`c\.?p\.?c` is segments
`["c","p","c"]`), greedy on each dot with backtracking; returns
`(matched slice, rest)`. -/
def dotSegs : List (List Char) → List Char → Option (List Char × List Char)
  | [], s => some ([], s)
  | [seg], s => litTok seg s
  | seg :: segs, s =>
    match litCI seg s with
    | none => none
    | some r =>
      let m1 := s.take seg.length
      match r with
      | '.' :: t2 =>
        (match dotSegs segs t2 with
         | some mr => some (m1 ++ '.' :: mr.1, mr.2)
         | none => (dotSegs segs r).map (fun mr => (m1 ++ mr.1, mr.2)))
      | _ => (dotSegs segs r).map (fun mr => (m1 ++ mr.1, mr.2))

/-- Keyword alternatives `section|sec\.?|s\.?` of extraction pattern 1, as
ordered candidate rests (dot-greedy first). -/
def v1KwRests (s : List Char) : List (List Char) :=
  (match litCI (cs "section") s with
   | some r => [r]
   | none => []) ++
  (match litCI (cs "sec") s with
   | some r =>
     (match r with
      | '.' :: t => [t, r]
      | _ => [r])
   | none => []) ++
  (match litCI (cs "s") s with
   | some r =>
     (match r with
      | '.' :: t => [t, r]
      | _ => [r])
   | none => [])

/-- All split points of the greedy `[-A-Za-z]*` star, longest first. -/
def starCandList (cls : Char → Bool) (s : List Char) :
    List (List Char × List Char) :=
  let m := (s.takeWhile cls).length
  (List.range (m + 1)).reverse.map (fun i => (s.take i, s.drop i))

/-- Number group `(\d+[-A-Za-z]*)`: maximal digits (safe), then the star
with backtracking. -/
def v1NumCands (s : List Char) : List (List Char × List Char) :=
  match spanDigits s with
  | ([], _) => []
  | (d, r) =>
    (starCandList (fun c => c = '-' || c.isAlpha) r).map
      (fun p => (d ++ p.1, p.2))

/-- Law alternation of extraction pattern 1 (plain tokens first, dotted
variants after), each returning the matched slice. -/
def v1LawAlts (s : List Char) : Option (List Char × List Char) :=
  match litTok (cs "cpc") s with
  | some a => some a
  | none =>
  match litTok (cs "crpc") s with
  | some a => some a
  | none =>
  match litTok (cs "ppc") s with
  | some a => some a
  | none =>
  match litTok (cs "qso") s with
  | some a => some a
  | none =>
  match litTok (cs "mflo") s with
  | some a => some a
  | none =>
  match dotSegs [cs "c", cs "p", cs "c"] s with
  | some a => some a
  | none =>
  match dotSegs [cs "cr", cs "p", cs "c"] s with
  | some a => some a
  | none => dotSegs [cs "p", cs "p", cs "c"] s

/-- Validator extraction pattern 1:
`(?:section|sec\.?|s\.?)\s*(\d+[-A-Za-z]*)\s+(cpc|crpc|ppc|qso|mflo|c\.?p\.?c|cr\.?p\.?c|p\.?p\.?c)`. -/
def matchV1 (s : List Char) : Option ((List Char × List Char) × List Char) :=
  (v1KwRests s).findSome? (fun r1 =>
    (v1NumCands (wsMany r1)).findSome? (fun g1r =>
      (ws1 g1r.2).bind (fun r3 =>
        (v1LawAlts r3).map (fun lawr => ((g1r.1, lawr.1), lawr.2)))))

/-- Validator extraction pattern 2: `article\s*(\d+)`. -/
def matchV2 (s : List Char) : Option (List Char × List Char) :=
  (litCI (cs "article") s).bind (fun r1 =>
    match spanDigits (wsMany r1) with
    | ([], _) => none
    | (d, r) => some (d, r))

/-- Validator extraction pattern 3: `u/s\s*(\d+[-A-Za-z]*)\s*(ppc|crpc|cpc)`. -/
def matchV3 (s : List Char) : Option ((List Char × List Char) × List Char) :=
  (litCI (cs "u/s") s).bind (fun r1 =>
    (v1NumCands (wsMany r1)).findSome? (fun g1r =>
      let r3 := wsMany g1r.2
      let lawTok : Option (List Char × List Char) :=
        match litTok (cs "ppc") r3 with
        | some a => some a
        | none =>
          match litTok (cs "crpc") r3 with
          | some a => some a
          | none => litTok (cs "cpc") r3
      lawTok.map (fun lawr => ((g1r.1, lawr.1), lawr.2))))

def isIvxlc (c : Char) : Bool :=
  let d := c.toLower
  d = 'i' || d = 'v' || d = 'x' || d = 'l' || d = 'c'

/-- `([ivxlc]+|\d+)` (class alternative first; disjoint on the first char). -/
def ivxlcOrDigits (s : List Char) : Option (List Char × List Char) :=
  match s with
  | [] => none
  | c :: _ =>
    if isIvxlc c then
      some (s.takeWhile isIvxlc, s.dropWhile isIvxlc)
    else if c.isDigit then some (spanDigits s)
    else none

/-- Validator extraction pattern 4: `order\s+([ivxlc]+|\d+)\s+rule\s+(\d+)`. -/
def matchV4 (s : List Char) : Option ((List Char × List Char) × List Char) :=
  (litCI (cs "order") s).bind (fun r1 =>
  (ws1 r1).bind (fun r2 =>
  (ivxlcOrDigits r2).bind (fun g1r =>
  (ws1 g1r.2).bind (fun r4 =>
  (litCI (cs "rule") r4).bind (fun r5 =>
  (ws1 r5).bind (fun r6 =>
  match spanDigits r6 with
  | ([], _) => none
  | (d, r7) => some ((g1r.1, d), r7)))))))

/-- `SectionValidator._normalize_law_name`: upper-case, drop dots, map. -/
def normalize_law_name (law : List Char) : List Char :=
  let lawU := dedot (upperL law)
  if lawU = cs "CPC" then cs "CPC"
  else if lawU = cs "CRPC" then cs "CrPC"
  else if lawU = cs "PPC" then cs "PPC"
  else if lawU = cs "QSO" then cs "QSO"
  else if lawU = cs "MFLO" then cs "MFLO"
  else lawU

def dedupPairsGo (seen : List (List Char × List Char)) :
    List (List Char × List Char) → List (List Char × List Char)
  | [] => []
  | p :: t =>
    if p ∈ seen then dedupPairsGo seen t
    else p :: dedupPairsGo (p :: seen) t

/-- `SectionValidator._extract_cited_sections`: the four patterns over the
lower-cased draft, deduplicated.  (The code deduplicates via `list(set(..))`
whose iteration order is unspecified; this model keeps first occurrences —
every property proved about the result is order-insensitive.) -/
def extract_cited_sections (text : List Char) : List (List Char × List Char) :=
  let tl := lowerL text
  dedupPairsGo []
    (((findIter matchV1 tl).map
        (fun g => (normalize_law_name g.2, upperL g.1))) ++
     ((findIter matchV2 tl).map (fun d => (cs "Constitution", d))) ++
     ((findIter matchV3 tl).map
        (fun g => (normalize_law_name g.2, upperL g.1))) ++
     ((findIter matchV4 tl).map
        (fun g => (cs "CPC",
          cs "Order " ++ upperL g.1 ++ (cs " Rule " ++ g.2)))))

-- ---------------------------------------------------------------------------
-- section_validator.py : flagging wrong sections in the draft
-- ---------------------------------------------------------------------------

/-- Keyword alternatives `section|sec\.?` of the flag patterns. -/
def flagKwRests (s : List Char) : List (List Char) :=
  (match litCI (cs "section") s with
   | some r => [r]
   | none => []) ++
  (match litCI (cs "sec") s with
   | some r =>
     (match r with
      | c :: t => if c = '.' then [t, r] else [r]
      | [] => [r])
   | none => [])

/-- Flag pattern `((?:section|sec\.?)\s*<sec>\s+<law>)`. -/
def flagMatchA (sec law s : List Char) : Option (List Char) :=
  (flagKwRests s).findSome? (fun r1 =>
    (litCI sec (wsMany r1)).bind (fun r2 =>
    (ws1 r2).bind (fun r3 =>
    litCI law r3)))

/-- Flag pattern `((?:section|sec\.?)\s*<sec>\s+of\s+(?:the\s+)?<law>)`. -/
def flagMatchB (sec law s : List Char) : Option (List Char) :=
  (flagKwRests s).findSome? (fun r1 =>
    (litCI sec (wsMany r1)).bind (fun r2 =>
    (ws1 r2).bind (fun r3 =>
    (litCI (cs "of") r3).bind (fun r4 =>
    (ws1 r4).bind (fun r5 =>
      match litCI (cs "the") r5 with
      | some r6 =>
        (match ws1 r6 with
         | some r7 =>
           (match litCI law r7 with
            | some r8 => some r8
            | none => litCI law r5)
         | none => litCI law r5)
      | none => litCI law r5)))))

/-- Flag pattern `(<law>\s+(?:section|sec\.?)\s*<sec>)`. -/
def flagMatchC (sec law s : List Char) : Option (List Char) :=
  (litCI law s).bind (fun r1 =>
  (ws1 r1).bind (fun r2 =>
  (flagKwRests r2).findSome? (fun r3 =>
    litCI sec (wsMany r3))))

/-- `re.sub` with replacement `[⚠️ WRONG: \1]` (the whole match is group 1
in all three flag patterns): leftmost non-overlapping matches are wrapped,
everything else copied. -/
def reSubFlag (matchAt : List Char → Option (List Char)) :
    Nat → List Char → List Char
  | 0, s => s
  | _ + 1, [] => []
  | fuel + 1, c :: t =>
    match matchAt (c :: t) with
    | some rest =>
      let m := (c :: t).take ((c :: t).length - rest.length)
      cs "[⚠️ WRONG: " ++ m ++ ']' :: reSubFlag matchAt fuel rest
    | none => c :: reSubFlag matchAt fuel t

def subFlag (matchAt : List Char → Option (List Char)) (s : List Char) :
    List Char :=
  reSubFlag matchAt (s.length + 1) s

/-- `SectionValidator._flag_wrong_section`: the three substitutions applied
in order (the law and section are spliced into the pattern as literals; the
only wrong-usage rule key is `("CPC", "80")`). -/
def flag_wrong_section (draft law sec : List Char) : List Char :=
  subFlag (flagMatchC sec law)
    (subFlag (flagMatchB sec law) (subFlag (flagMatchA sec law) draft))

-- ---------------------------------------------------------------------------
-- section_validator.py : validate_draft
-- ---------------------------------------------------------------------------

structure ValidationResult where
  is_valid : Bool
  draft : List Char
  original_draft : List Char
  sections_added : List (List Char)
  sections_removed : List (List Char)
  sections_correct : List (List Char)
  warnings : List (List Char)
  flags_for_review : List (List Char)
  confidence : Confidence
deriving DecidableEq

/-- Python-dict insert: overwrite in place if the key exists, else append. -/
def dictInsert (m : List ((List Char × List Char) × ApplicableSection))
    (k : List Char × List Char) (v : ApplicableSection) :
    List ((List Char × List Char) × ApplicableSection) :=
  if m.any (fun e => e.1 = k) then
    m.map (fun e => if e.1 = k then (k, v) else e)
  else m ++ [(k, v)]

/-- The `expected_sections` dict comprehension (later entries overwrite,
first-insertion order). -/
def expectedDict (l : List ApplicableSection) :
    List ((List Char × List Char) × ApplicableSection) :=
  l.foldl
    (fun m s => dictInsert m (upperL s.law_short, upperL s.section_number) s)
    []

def wrongSection80Msg : List Char :=
  cs "Section 80 CPC applies ONLY to notices against Government entities"

/-- The wrong-usage-rule check of the cited-sections loop: the only rule key
is `("CPC", "80")` with rule kind `government_only`. -/
def wrongRuleStep (analysis : CaseAnalysis) (res : ValidationResult)
    (cit : List Char × List Char) : ValidationResult :=
  if (upperL cit.1, upperL cit.2) = (cs "CPC", cs "80") then
    if analysis.is_government_involved = false then
      ⟨false, flag_wrong_section res.draft cit.1 cit.2, res.original_draft,
       res.sections_added,
       res.sections_removed ++ [cit.1 ++ (cs " Section " ++ cit.2)],
       res.sections_correct,
       res.warnings ++ [cs "⚠️ WRONG SECTION: " ++ wrongSection80Msg],
       res.flags_for_review, res.confidence⟩
    else res
  else res

/-- The expected/unknown check of the cited-sections loop. -/
def knownCheckStep (expected : List ((List Char × List Char) × ApplicableSection))
    (res1 : ValidationResult) (cit : List Char × List Char) :
    ValidationResult :=
  let key := (upperL cit.1, upperL cit.2)
  if (expected.find? (fun e => e.1 = key)).isSome then
    ⟨res1.is_valid, res1.draft, res1.original_draft, res1.sections_added,
     res1.sections_removed,
     res1.sections_correct ++ [cit.1 ++ (cs " Section " ++ cit.2)],
     res1.warnings, res1.flags_for_review, res1.confidence⟩
  else if key ≠ (cs "CPC", cs "80") then
    ⟨res1.is_valid, res1.draft, res1.original_draft, res1.sections_added,
     res1.sections_removed, res1.sections_correct, res1.warnings,
     res1.flags_for_review ++
       [cs "Verify if " ++ cit.1 ++ (cs " Section " ++ cit.2 ++
         cs " is applicable to this case")],
     res1.confidence⟩
  else res1

/-- One iteration of the cited-sections loop of `validate_draft`. -/
def citedStep (analysis : CaseAnalysis)
    (expected : List ((List Char × List Char) × ApplicableSection))
    (res : ValidationResult) (cit : List Char × List Char) :
    ValidationResult :=
  knownCheckStep expected (wrongRuleStep analysis res cit) cit

/-- One iteration of the missing-primary-sections loop of `validate_draft`. -/
def missingStep (cited : List (List Char × List Char))
    (res : ValidationResult)
    (e : (List Char × List Char) × ApplicableSection) : ValidationResult :=
  if e.2.is_primary && (e.2.confidence == Confidence.high) then
    let law := e.1.1
    let sec := e.1.2
    if cited.any (fun c => upperL c.1 = law && upperL c.2 = sec) then res
    else
      ⟨res.is_valid, res.draft, res.original_draft,
       res.sections_added ++ [law ++ (cs " Section " ++ sec)],
       res.sections_removed, res.sections_correct, res.warnings,
       res.flags_for_review ++
         [cs "Consider adding " ++ law ++ (cs " Section " ++ sec ++
           (cs ": " ++ e.2.reason))],
       res.confidence⟩
  else res

/-- `SectionValidator.validate_draft` (an absent `analysis` argument is
recomputed from the rules engine, as in the code). -/
def validate_draft (draft category facts : List Char)
    (analysisOpt : Option CaseAnalysis) : ValidationResult :=
  let analysis := analysisOpt.getD (analyze_case category facts)
  let res0 : ValidationResult :=
    ⟨true, draft, draft, [], [], [], analysis.warnings,
     analysis.flags_for_review, analysis.confidence⟩
  let cited := extract_cited_sections draft
  let expected := expectedDict analysis.applicable_sections
  expected.foldl (missingStep cited)
    (cited.foldl (citedStep analysis expected) res0)

-- ---------------------------------------------------------------------------
-- C3: suffix and superlist lemmas for the flag rewriter
-- ---------------------------------------------------------------------------

theorem litCI_suffix :
    ∀ (p s r : List Char), litCI p s = some r → List.IsSuffix r s := by
  intro p
  induction p with
  | nil =>
    intro s r h
    simp only [litCI, Option.some.injEq] at h
    exact h ▸ List.suffix_refl s
  | cons x ps ih =>
    intro s r h
    cases s with
    | nil => simp [litCI] at h
    | cons c t =>
      simp only [litCI] at h
      split at h
      · exact (ih t r h).trans (List.suffix_cons c t)
      · simp at h

theorem wsMany_suffix (s : List Char) : List.IsSuffix (wsMany s) s :=
  List.dropWhile_suffix pyIsSpace

theorem ws1_suffix {s r : List Char} (h : ws1 s = some r) :
    List.IsSuffix r s := by
  cases s with
  | nil => simp [ws1] at h
  | cons c t =>
    simp only [ws1] at h
    split at h
    · simp only [Option.some.injEq] at h
      exact h ▸ (List.dropWhile_suffix pyIsSpace).trans (List.suffix_cons c t)
    · simp at h

theorem flagKwRests_suffix {s : List Char} :
    ∀ r ∈ flagKwRests s, List.IsSuffix r s := by
  intro r hr
  simp only [flagKwRests, List.mem_append] at hr
  rcases hr with h | h
  · rcases h1 : litCI (cs "section") s with _ | rs
    · rw [h1] at h; simp at h
    · rw [h1] at h
      simp only [List.mem_singleton] at h
      exact h ▸ litCI_suffix _ s rs h1
  · rcases h2 : litCI (cs "sec") s with _ | rc
    · rw [h2] at h; simp at h
    · rw [h2] at h
      have hrc : List.IsSuffix rc s := litCI_suffix _ s rc h2
      cases rc with
      | nil =>
        simp only [] at h
        simp only [List.mem_singleton] at h
        exact h ▸ hrc
      | cons c0 t0 =>
        simp only [] at h
        by_cases hc0 : c0 = '.'
        · subst hc0
          rw [if_pos rfl] at h
          have h2' : r = t0 ∨ r = '.' :: t0 := by simpa using h
          rcases h2' with rfl | rfl
          · exact (List.suffix_cons '.' _).trans hrc
          · exact hrc
        · rw [if_neg hc0] at h
          have h2' : r = c0 :: t0 := by simpa using h
          exact h2' ▸ hrc

theorem flagMatchA_suffix {sec law s r : List Char}
    (h : flagMatchA sec law s = some r) : List.IsSuffix r s := by
  obtain ⟨r1, hr1, hchain⟩ := List.exists_of_findSome?_eq_some h
  have h1 : List.IsSuffix r1 s := flagKwRests_suffix r1 hr1
  rcases hb2 : litCI sec (wsMany r1) with _ | r2
  · rw [hb2] at hchain; simp at hchain
  · rw [hb2] at hchain
    simp only [Option.bind_eq_bind, Option.some_bind] at hchain
    rcases hb3 : ws1 r2 with _ | r3
    · rw [hb3] at hchain; simp at hchain
    · rw [hb3] at hchain
      simp only [Option.some_bind] at hchain
      exact (litCI_suffix _ _ _ hchain).trans
        ((ws1_suffix hb3).trans
          ((litCI_suffix _ _ _ hb2).trans ((wsMany_suffix r1).trans h1)))

theorem flagMatchB_suffix {sec law s r : List Char}
    (h : flagMatchB sec law s = some r) : List.IsSuffix r s := by
  obtain ⟨r1, hr1, hchain⟩ := List.exists_of_findSome?_eq_some h
  have h1 : List.IsSuffix r1 s := flagKwRests_suffix r1 hr1
  rcases hb2 : litCI sec (wsMany r1) with _ | r2
  · rw [hb2] at hchain; simp at hchain
  · rw [hb2] at hchain
    simp only [Option.bind_eq_bind, Option.some_bind] at hchain
    rcases hb3 : ws1 r2 with _ | r3
    · rw [hb3] at hchain; simp at hchain
    · rw [hb3] at hchain
      simp only [Option.some_bind] at hchain
      rcases hb4 : litCI (cs "of") r3 with _ | r4
      · rw [hb4] at hchain; simp at hchain
      · rw [hb4] at hchain
        simp only [Option.some_bind] at hchain
        rcases hb5 : ws1 r4 with _ | r5
        · rw [hb5] at hchain; simp at hchain
        · rw [hb5] at hchain
          simp only [Option.some_bind] at hchain
          have h5 : List.IsSuffix r5 s :=
            (ws1_suffix hb5).trans
              ((litCI_suffix _ _ _ hb4).trans
                ((ws1_suffix hb3).trans
                  ((litCI_suffix _ _ _ hb2).trans
                    ((wsMany_suffix r1).trans h1))))
          have hlaw5 : litCI law r5 = some r → List.IsSuffix r s :=
            fun hl => (litCI_suffix _ _ _ hl).trans h5
          rcases hb6 : litCI (cs "the") r5 with _ | r6
          · rw [hb6] at hchain
            exact hlaw5 hchain
          · rw [hb6] at hchain
            simp only [] at hchain
            rcases hb7 : ws1 r6 with _ | r7
            · rw [hb7] at hchain
              exact hlaw5 hchain
            · rw [hb7] at hchain
              simp only [] at hchain
              rcases hb8 : litCI law r7 with _ | r8
              · rw [hb8] at hchain
                exact hlaw5 hchain
              · rw [hb8] at hchain
                simp only [Option.some.injEq] at hchain
                subst hchain
                exact (litCI_suffix _ _ _ hb8).trans
                  ((ws1_suffix hb7).trans
                    ((litCI_suffix _ _ _ hb6).trans h5))

theorem flagMatchC_suffix {sec law s r : List Char}
    (h : flagMatchC sec law s = some r) : List.IsSuffix r s := by
  simp only [flagMatchC, Option.bind_eq_bind] at h
  rcases hb1 : litCI law s with _ | r1
  · rw [hb1] at h; simp at h
  · rw [hb1] at h
    simp only [Option.some_bind] at h
    rcases hb2 : ws1 r1 with _ | r2
    · rw [hb2] at h; simp at h
    · rw [hb2] at h
      simp only [Option.some_bind] at h
      obtain ⟨r3, hr3, hchain⟩ := List.exists_of_findSome?_eq_some h
      exact (litCI_suffix _ _ _ hchain).trans
        ((wsMany_suffix r3).trans
          ((flagKwRests_suffix r3 hr3).trans
            ((ws1_suffix hb2).trans (litCI_suffix _ _ _ hb1))))

/-- `re.sub` with a suffix-producing matcher only inserts text: the input is
a subsequence of the output. -/
theorem reSubFlag_superlist (matchAt : List Char → Option (List Char))
    (hm : ∀ s r, matchAt s = some r → List.IsSuffix r s) :
    ∀ (fuel : Nat) (s : List Char), List.Sublist s (reSubFlag matchAt fuel s) := by
  intro fuel
  induction fuel with
  | zero => intro s; exact List.Sublist.refl s
  | succ fuel ih =>
    intro s
    cases s with
    | nil => exact List.Sublist.refl []
    | cons c t =>
      rcases hma : matchAt (c :: t) with _ | rest
      · simp only [reSubFlag, hma]
        exact (ih t).cons₂ c
      · simp only [reSubFlag, hma]
        obtain ⟨pre, hpre⟩ := hm (c :: t) rest hma
        have hlen : (c :: t).length - rest.length = pre.length := by
          rw [← hpre]; simp
        have hm2 : (c :: t).take ((c :: t).length - rest.length) = pre := by
          rw [hlen, ← hpre, List.take_left]
        rw [hm2, ← hpre]
        have h1 : List.Sublist rest (reSubFlag matchAt fuel rest) := ih rest
        have h2 : List.Sublist (pre ++ rest)
            (pre ++ (']' :: reSubFlag matchAt fuel rest)) :=
          (h1.cons ']').append_left pre
        exact h2.trans (List.sublist_append_right (cs "[⚠️ WRONG: ") _)

theorem subFlag_superlist (matchAt : List Char → Option (List Char))
    (hm : ∀ s r, matchAt s = some r → List.IsSuffix r s) (s : List Char) :
    List.Sublist s (subFlag matchAt s) :=
  reSubFlag_superlist matchAt hm _ s

/-- The flag rewriter only annotates: the draft is a subsequence of its
flagged form. -/
theorem flag_wrong_section_superlist (draft law sec : List Char) :
    List.Sublist draft (flag_wrong_section draft law sec) := by
  unfold flag_wrong_section
  have h1 := subFlag_superlist (flagMatchA sec law)
    (fun s r h => flagMatchA_suffix h) draft
  have h2 := subFlag_superlist (flagMatchB sec law)
    (fun s r h => flagMatchB_suffix h)
    (subFlag (flagMatchA sec law) draft)
  have h3 := subFlag_superlist (flagMatchC sec law)
    (fun s r h => flagMatchC_suffix h)
    (subFlag (flagMatchB sec law) (subFlag (flagMatchA sec law) draft))
  exact (h1.trans h2).trans h3

-- ---------------------------------------------------------------------------
-- C3: validate_draft on a wrongly cited Section 80 CPC
-- ---------------------------------------------------------------------------

theorem knownCheckStep_core (e : List ((List Char × List Char) × ApplicableSection))
    (res1 : ValidationResult) (cit : List Char × List Char) :
    (knownCheckStep e res1 cit).is_valid = res1.is_valid ∧
    (knownCheckStep e res1 cit).draft = res1.draft ∧
    (knownCheckStep e res1 cit).original_draft = res1.original_draft ∧
    (knownCheckStep e res1 cit).sections_removed = res1.sections_removed := by
  simp only [knownCheckStep]
  split
  · exact ⟨rfl, rfl, rfl, rfl⟩
  · split
    · exact ⟨rfl, rfl, rfl, rfl⟩
    · exact ⟨rfl, rfl, rfl, rfl⟩

theorem wrongRuleStep_mono (a : CaseAnalysis) (res : ValidationResult)
    (cit : List Char × List Char) :
    (wrongRuleStep a res cit).original_draft = res.original_draft ∧
    List.Sublist res.draft (wrongRuleStep a res cit).draft ∧
    ((wrongRuleStep a res cit).is_valid = true → res.is_valid = true) ∧
    (∀ x ∈ res.sections_removed,
      x ∈ (wrongRuleStep a res cit).sections_removed) := by
  unfold wrongRuleStep
  split
  · split
    · refine ⟨rfl, flag_wrong_section_superlist _ _ _, ?_, ?_⟩
      · intro h; exact absurd h (by simp)
      · intro x hx; simp [hx]
    · exact ⟨rfl, List.Sublist.refl _, fun h => h, fun x hx => hx⟩
  · exact ⟨rfl, List.Sublist.refl _, fun h => h, fun x hx => hx⟩

theorem wrongRuleStep_hit (a : CaseAnalysis) (res : ValidationResult)
    (hgov : a.is_government_involved = false) :
    (wrongRuleStep a res (cs "CPC", cs "80")).is_valid = false ∧
    cs "CPC Section 80" ∈
      (wrongRuleStep a res (cs "CPC", cs "80")).sections_removed := by
  unfold wrongRuleStep
  rw [if_pos (by decide), if_pos hgov]
  refine ⟨rfl, ?_⟩
  have heq : cs "CPC Section 80" =
      (cs "CPC", cs "80").1 ++ (cs " Section " ++ (cs "CPC", cs "80").2) := by
    decide
  rw [heq]
  exact List.mem_append_right _ (by simp)

theorem citedStep_mono (a : CaseAnalysis)
    (e : List ((List Char × List Char) × ApplicableSection))
    (res : ValidationResult) (cit : List Char × List Char) :
    (citedStep a e res cit).original_draft = res.original_draft ∧
    List.Sublist res.draft (citedStep a e res cit).draft ∧
    ((citedStep a e res cit).is_valid = true → res.is_valid = true) ∧
    (∀ x ∈ res.sections_removed, x ∈ (citedStep a e res cit).sections_removed) := by
  obtain ⟨k1, k2, k3, k4⟩ := knownCheckStep_core e (wrongRuleStep a res cit) cit
  obtain ⟨w1, w2, w3, w4⟩ := wrongRuleStep_mono a res cit
  unfold citedStep
  refine ⟨by rw [k3, w1], ?_, ?_, ?_⟩
  · rw [k2]; exact w2
  · intro h; rw [k1] at h; exact w3 h
  · intro x hx; rw [k4]; exact w4 x hx

theorem citedStep_hit (a : CaseAnalysis)
    (e : List ((List Char × List Char) × ApplicableSection))
    (res : ValidationResult) (hgov : a.is_government_involved = false) :
    (citedStep a e res (cs "CPC", cs "80")).is_valid = false ∧
    cs "CPC Section 80" ∈
      (citedStep a e res (cs "CPC", cs "80")).sections_removed := by
  obtain ⟨k1, -, -, k4⟩ :=
    knownCheckStep_core e (wrongRuleStep a res (cs "CPC", cs "80"))
      (cs "CPC", cs "80")
  obtain ⟨hv, hr⟩ := wrongRuleStep_hit a res hgov
  unfold citedStep
  rw [k1, k4]
  exact ⟨hv, hr⟩

theorem citedFold_mono (a : CaseAnalysis)
    (e : List ((List Char × List Char) × ApplicableSection)) :
    ∀ (l : List (List Char × List Char)) (res : ValidationResult),
      (l.foldl (citedStep a e) res).original_draft = res.original_draft ∧
      List.Sublist res.draft (l.foldl (citedStep a e) res).draft ∧
      ((l.foldl (citedStep a e) res).is_valid = true → res.is_valid = true) ∧
      (∀ x ∈ res.sections_removed,
        x ∈ (l.foldl (citedStep a e) res).sections_removed) := by
  intro l
  induction l with
  | nil =>
    intro res
    exact ⟨rfl, List.Sublist.refl _, fun h => h, fun _ hx => hx⟩
  | cons c t ih =>
    intro res
    obtain ⟨h1, h2, h3, h4⟩ := ih (citedStep a e res c)
    obtain ⟨g1, g2, g3, g4⟩ := citedStep_mono a e res c
    exact ⟨by rw [List.foldl_cons, h1, g1],
           by rw [List.foldl_cons]; exact g2.trans h2,
           by rw [List.foldl_cons]; intro h; exact g3 (h3 h),
           by rw [List.foldl_cons]; intro x hx; exact h4 x (g4 x hx)⟩

theorem citedFold_hit (a : CaseAnalysis)
    (e : List ((List Char × List Char) × ApplicableSection))
    (hgov : a.is_government_involved = false) :
    ∀ (l : List (List Char × List Char)) (res : ValidationResult),
      (cs "CPC", cs "80") ∈ l →
      (l.foldl (citedStep a e) res).is_valid = false ∧
      cs "CPC Section 80" ∈ (l.foldl (citedStep a e) res).sections_removed := by
  intro l
  induction l with
  | nil => intro res h; simp at h
  | cons c t ih =>
    intro res hmem
    rcases List.mem_cons.mp hmem with rfl | hmem
    · obtain ⟨hv, hr⟩ := citedStep_hit a e res hgov
      obtain ⟨-, -, h3, h4⟩ :=
        citedFold_mono a e t (citedStep a e res (cs "CPC", cs "80"))
      rw [List.foldl_cons]
      constructor
      · cases hfinal :
          (t.foldl (citedStep a e)
            (citedStep a e res (cs "CPC", cs "80"))).is_valid
        · rfl
        · have := h3 hfinal
          rw [hv] at this
          exact absurd this (by simp)
      · exact h4 _ hr
    · rw [List.foldl_cons]
      exact ih (citedStep a e res c) hmem

theorem missingStep_core (cited : List (List Char × List Char))
    (res : ValidationResult)
    (e : (List Char × List Char) × ApplicableSection) :
    (missingStep cited res e).is_valid = res.is_valid ∧
    (missingStep cited res e).draft = res.draft ∧
    (missingStep cited res e).original_draft = res.original_draft ∧
    (missingStep cited res e).sections_removed = res.sections_removed := by
  simp only [missingStep]
  split
  · split
    · exact ⟨rfl, rfl, rfl, rfl⟩
    · exact ⟨rfl, rfl, rfl, rfl⟩
  · exact ⟨rfl, rfl, rfl, rfl⟩

theorem missingFold_core (cited : List (List Char × List Char)) :
    ∀ (l : List ((List Char × List Char) × ApplicableSection))
      (res : ValidationResult),
      (l.foldl (missingStep cited) res).is_valid = res.is_valid ∧
      (l.foldl (missingStep cited) res).draft = res.draft ∧
      (l.foldl (missingStep cited) res).original_draft = res.original_draft ∧
      (l.foldl (missingStep cited) res).sections_removed =
        res.sections_removed := by
  intro l
  induction l with
  | nil => intro res; exact ⟨rfl, rfl, rfl, rfl⟩
  | cons x t ih =>
    intro res
    obtain ⟨h1, h2, h3, h4⟩ := ih (missingStep cited res x)
    obtain ⟨g1, g2, g3, g4⟩ := missingStep_core cited res x
    exact ⟨by rw [List.foldl_cons, h1, g1], by rw [List.foldl_cons, h2, g2],
           by rw [List.foldl_cons, h3, g3], by rw [List.foldl_cons, h4, g4]⟩

/-- C3 (amended): when a draft's extracted citations include `(CPC, 80)` and
the case analysis reports no government involvement, `validate_draft`
returns `is_valid = false`, lists `CPC Section 80` in `sections_removed`,
keeps the original draft unchanged in `original_draft`, and only annotates
the corrected draft in place (the original text survives as a subsequence —
nothing is deleted).  The flag marker is inserted at occurrences written in
the three plain forms the rewriter targets (demonstrated by the final,
concrete conjunct); dotted variants such as `Section 80 C.P.C.` and the
`u/s 80 CPC` shorthand are extracted and counted but receive no marker. -/
theorem validate_draft_wrong_cpc80 (draft category facts : List Char)
    (analysis : CaseAnalysis)
    (hgov : analysis.is_government_involved = false)
    (hcit : (cs "CPC", cs "80") ∈ extract_cited_sections draft) :
    (validate_draft draft category facts (some analysis)).is_valid = false ∧
    cs "CPC Section 80" ∈
      (validate_draft draft category facts (some analysis)).sections_removed ∧
    (validate_draft draft category facts (some analysis)).original_draft =
      draft ∧
    List.Sublist draft
      (validate_draft draft category facts (some analysis)).draft ∧
    (validate_draft (cs "Under Section 80 CPC notice is given")
        (cs "Legal Notice") (cs "my client wants to warn his neighbour")
        none).draft =
      cs "Under [⚠️ WRONG: Section 80 CPC] notice is given" := by
  have hv : validate_draft draft category facts (some analysis) =
      (expectedDict analysis.applicable_sections).foldl
        (missingStep (extract_cited_sections draft))
        ((extract_cited_sections draft).foldl
          (citedStep analysis (expectedDict analysis.applicable_sections))
          ⟨true, draft, draft, [], [], [], analysis.warnings,
           analysis.flags_for_review, analysis.confidence⟩) := rfl
  obtain ⟨m1, m2, m3, m4⟩ :=
    missingFold_core (extract_cited_sections draft)
      (expectedDict analysis.applicable_sections)
      ((extract_cited_sections draft).foldl
        (citedStep analysis (expectedDict analysis.applicable_sections))
        ⟨true, draft, draft, [], [], [], analysis.warnings,
         analysis.flags_for_review, analysis.confidence⟩)
  obtain ⟨f1, f2, f3, f4⟩ :=
    citedFold_mono analysis (expectedDict analysis.applicable_sections)
      (extract_cited_sections draft)
      ⟨true, draft, draft, [], [], [], analysis.warnings,
       analysis.flags_for_review, analysis.confidence⟩
  obtain ⟨hval, hrem⟩ :=
    citedFold_hit analysis (expectedDict analysis.applicable_sections) hgov
      (extract_cited_sections draft)
      ⟨true, draft, draft, [], [], [], analysis.warnings,
       analysis.flags_for_review, analysis.confidence⟩ hcit
  rw [hv]
  refine ⟨by rw [m1, hval], by rw [m4]; exact hrem, by rw [m3, f1],
          by rw [m2]; exact f2, by decide⟩

/-- Witness for C3 at a concrete private-party draft citing Section 80 CPC
in plain notation. -/
theorem validate_draft_wrong_cpc80_witness :
    (validate_draft (cs "Notice under Section 80 CPC to my neighbour")
        (cs "Legal Notice") (cs "warn my neighbour")
        (some (analyze_case (cs "Legal Notice") (cs "warn my neighbour")))).is_valid
      = false ∧
    cs "CPC Section 80" ∈
      (validate_draft (cs "Notice under Section 80 CPC to my neighbour")
        (cs "Legal Notice") (cs "warn my neighbour")
        (some (analyze_case (cs "Legal Notice")
          (cs "warn my neighbour")))).sections_removed ∧
    (validate_draft (cs "Notice under Section 80 CPC to my neighbour")
        (cs "Legal Notice") (cs "warn my neighbour")
        (some (analyze_case (cs "Legal Notice")
          (cs "warn my neighbour")))).original_draft =
      cs "Notice under Section 80 CPC to my neighbour" ∧
    List.Sublist (cs "Notice under Section 80 CPC to my neighbour")
      (validate_draft (cs "Notice under Section 80 CPC to my neighbour")
        (cs "Legal Notice") (cs "warn my neighbour")
        (some (analyze_case (cs "Legal Notice")
          (cs "warn my neighbour")))).draft ∧
    (validate_draft (cs "Under Section 80 CPC notice is given")
        (cs "Legal Notice") (cs "my client wants to warn his neighbour")
        none).draft =
      cs "Under [⚠️ WRONG: Section 80 CPC] notice is given" :=
  validate_draft_wrong_cpc80 (cs "Notice under Section 80 CPC to my neighbour")
    (cs "Legal Notice") (cs "warn my neighbour")
    (analyze_case (cs "Legal Notice") (cs "warn my neighbour"))
    (by decide) (by decide)

/-- C3 (counterexample to the claim as stated): a draft citing the provision
only as `u/s 80 CPC` has the citation extracted (so it is flagged invalid
and listed in `sections_removed`), yet the corrected draft is returned
verbatim — no visible wrong-section marker is inserted at that occurrence. -/
theorem validate_draft_variant_counterexample :
    (cs "CPC", cs "80") ∈
      extract_cited_sections (cs "Notice is served u/s 80 CPC upon you.") ∧
    (validate_draft (cs "Notice is served u/s 80 CPC upon you.")
        (cs "Legal Notice") (cs "my client wants to warn his neighbour")
        none).is_valid = false ∧
    (validate_draft (cs "Notice is served u/s 80 CPC upon you.")
        (cs "Legal Notice") (cs "my client wants to warn his neighbour")
        none).draft =
      cs "Notice is served u/s 80 CPC upon you." ∧
    containsSub (cs "WRONG")
      (validate_draft (cs "Notice is served u/s 80 CPC upon you.")
        (cs "Legal Notice") (cs "my client wants to warn his neighbour")
        none).draft = false := by
  decide

-- ---------------------------------------------------------------------------
-- filter_organize.py
-- ---------------------------------------------------------------------------

/-- A section result dict.  Missing keys are modelled as `""`/`false` (the
pipeline always populates the keys it later reads). -/
structure SectionItem where
  found : Bool
  law_name : List Char
  section_number : List Char
  section_title : List Char
  section_text : List Char
  matched_keyword : Bool
deriving DecidableEq

/-- A judgment result dict. -/
structure Judgment where
  found : Bool
  title : List Char
  citation : List Char
  date : List Char
  summary : List Char
deriving DecidableEq

structure RawResults where
  sections : List SectionItem
  judgments : List Judgment
deriving DecidableEq

/-- The dedup key of `remove_duplicates`: lower-cased `law_name_section`
with all whitespace removed. -/
def dupKey (item : SectionItem) : List Char :=
  (lowerL (item.law_name ++ '_' :: item.section_number)).filter
    (fun c => !pyIsSpace c)

def removeDupGo (seen : List (List Char)) : List SectionItem → List SectionItem
  | [] => []
  | item :: t =>
    if item.found = false then removeDupGo seen t
    else if dupKey item ∈ seen then removeDupGo seen t
    else item :: removeDupGo (dupKey item :: seen) t

/-- `remove_duplicates`: keep only `found` items, first per key. -/
def remove_duplicates (l : List SectionItem) : List SectionItem :=
  removeDupGo [] l

/-- `validate_section`. -/
def validate_section (item : SectionItem) : Bool :=
  item.law_name ≠ [] && item.section_number ≠ [] &&
  (item.section_title ≠ [] || item.section_text ≠ []) &&
  (item.section_text = [] || item.section_text.length ≥ 10)

/-- `validate_judgment`. -/
def validate_judgment (j : Judgment) : Bool :=
  j.title ≠ [] && (j.citation ≠ [] || j.summary ≠ [])

/-- `calculate_relevance`: base 50 plus bonuses, capped at 100. -/
def calculate_relevance (item : SectionItem) (query : List Char) : Nat :=
  let ql := lowerL query
  let score := 50
    + (if containsSub ql (lowerL item.section_title) then 30 else 0)
    + (if containsSub (lowerL item.section_number) ql then 20 else 0)
    + 10 * ((splitWS ql).filter
        (fun w => w.length > 3 && containsSub w (lowerL item.law_name))).length
    + (if item.matched_keyword then 15 else 0)
    + (if item.section_text ≠ [] && item.section_text.length > 100 then 10
       else 0)
  min score 100

/-- Stable descending insertion by score (the unique stable descending order,
matching Python's stable `sort(key=relevance, reverse=True)`). -/
def insertDesc (x : SectionItem × Nat) :
    List (SectionItem × Nat) → List (SectionItem × Nat)
  | [] => [x]
  | y :: t => if y.2 > x.2 then y :: insertDesc x t else x :: y :: t

def sortDesc : List (SectionItem × Nat) → List (SectionItem × Nat)
  | [] => []
  | x :: t => insertDesc x (sortDesc t)

/-- `"\n".join`. -/
def joinNl : List (List Char) → List Char
  | [] => []
  | [x] => x
  | x :: t => x ++ '\n' :: joinNl t

/-- `format_section_for_ai`. -/
def format_section_for_ai (item : SectionItem) : List Char :=
  let text :=
    if item.section_text.length > 800 then item.section_text.take 800 ++ cs "..."
    else item.section_text
  stripL (cs "[LAW: " ++ item.law_name ++
    (cs "]\n[SECTION: " ++ item.section_number ++
      (cs "]\n[TITLE: " ++ item.section_title ++
        (cs "]\n[TEXT:]\n" ++ text))))

/-- `format_judgment_for_ai`. -/
def format_judgment_for_ai (j : Judgment) : List Char :=
  let summary :=
    if j.summary.length > 500 then j.summary.take 500 ++ cs "..."
    else j.summary
  stripL (cs "[CASE: " ++ j.title ++
    (cs "]\n[CITATION: " ++ j.citation ++
      (cs "]\n[DATE: " ++ j.date ++
        (cs "]\n[SUMMARY:]\n" ++ summary))))

def sectionParts : Nat → List (SectionItem × Nat) → List (List Char)
  | _, [] => []
  | i, s :: t =>
    (cs "\n--- Section " ++ natChars i ++ cs " ---") ::
      format_section_for_ai s.1 :: sectionParts (i + 1) t

def judgmentParts : Nat → List Judgment → List (List Char)
  | _, [] => []
  | i, j :: t =>
    (cs "\n--- Judgment " ++ natChars i ++ cs " ---") ::
      format_judgment_for_ai j :: judgmentParts (i + 1) t

structure OrgOut where
  query : List Char
  sections : List (SectionItem × Nat)
  judgments : List Judgment
  formatted_for_ai : List Char
  total_valid : Nat
  sufficient : Bool
deriving DecidableEq

/-- `organize_results`: dedup, validate, score, sort, cap, format. -/
def organize_results (raw : RawResults) (query : List Char) : OrgOut :=
  let unique := remove_duplicates raw.sections
  let valid := unique.filter validate_section
  let scored := valid.map (fun s => (s, calculate_relevance s query))
  let secs := (sortDesc scored).take 10
  let js := (raw.judgments.filter validate_judgment).take 5
  let total := secs.length + js.length
  let ai_parts :=
    (if secs = [] then []
     else cs "=== RELEVANT LAW SECTIONS ===" :: sectionParts 1 secs) ++
    (if js = [] then []
     else cs "\n\n=== RELEVANT JUDGMENTS ===" :: judgmentParts 1 js)
  let ai_parts :=
    if ai_parts = [] then [cs "[NO RELEVANT LAW SECTIONS FOUND IN DATABASE]"]
    else ai_parts
  ⟨query, secs, js, joinNl ai_parts, total, decide (total ≥ 1)⟩

-- ---------------------------------------------------------------------------
-- C10: invariants of organize_results
-- ---------------------------------------------------------------------------

theorem mem_insertDesc {x y : SectionItem × Nat}
    {l : List (SectionItem × Nat)} (h : y ∈ insertDesc x l) :
    y = x ∨ y ∈ l := by
  induction l with
  | nil => simpa [insertDesc] using h
  | cons z t ih =>
    simp only [insertDesc] at h
    split at h
    · rcases List.mem_cons.mp h with rfl | h
      · right; simp
      · rcases ih h with h1 | h1
        · exact Or.inl h1
        · right; simp [h1]
    · rcases List.mem_cons.mp h with rfl | h
      · exact Or.inl rfl
      · exact Or.inr h

theorem mem_sortDesc {y : SectionItem × Nat} :
    ∀ {l : List (SectionItem × Nat)}, y ∈ sortDesc l → y ∈ l := by
  intro l
  induction l with
  | nil => simp [sortDesc]
  | cons x t ih =>
    intro h
    simp only [sortDesc] at h
    rcases mem_insertDesc h with rfl | h
    · simp
    · simp [ih h]

theorem insertDesc_sorted (x : SectionItem × Nat) :
    ∀ {l : List (SectionItem × Nat)},
      List.Pairwise (fun a b => b.2 ≤ a.2) l →
      List.Pairwise (fun a b => b.2 ≤ a.2) (insertDesc x l) := by
  intro l
  induction l with
  | nil => intro _; simp [insertDesc]
  | cons y t ih =>
    intro h
    obtain ⟨hy, ht⟩ := List.pairwise_cons.mp h
    simp only [insertDesc]
    split
    · next hgt =>
      refine List.pairwise_cons.mpr ⟨?_, ih ht⟩
      intro z hz
      rcases mem_insertDesc hz with rfl | hz
      · omega
      · exact hy z hz
    · next hle =>
      refine List.pairwise_cons.mpr ⟨?_, h⟩
      intro z hz
      rcases List.mem_cons.mp hz with rfl | hz
      · omega
      · have := hy z hz
        omega

theorem sortDesc_sorted :
    ∀ (l : List (SectionItem × Nat)),
      List.Pairwise (fun a b => b.2 ≤ a.2) (sortDesc l) := by
  intro l
  induction l with
  | nil => simp [sortDesc]
  | cons x t ih => exact insertDesc_sorted x ih

/-- C10: the bundle built by `organize_results` has at most 10 sections and
5 judgments; every retained section has a non-empty law name and section
number, a non-empty title or text, and carries its relevance score, which
lies between 50 and 100; sections are ordered by non-increasing score;
`total_valid` is the number of retained sections plus judgments; and
`sufficient` holds exactly when `total_valid ≥ 1`. -/
theorem organize_results_invariants (raw : RawResults) (query : List Char) :
    (organize_results raw query).sections.length ≤ 10 ∧
    (organize_results raw query).judgments.length ≤ 5 ∧
    (∀ p ∈ (organize_results raw query).sections,
      p.1.law_name ≠ [] ∧ p.1.section_number ≠ [] ∧
      (p.1.section_title ≠ [] ∨ p.1.section_text ≠ []) ∧
      p.2 = calculate_relevance p.1 query ∧ 50 ≤ p.2 ∧ p.2 ≤ 100) ∧
    List.Pairwise (fun a b => b.2 ≤ a.2)
      (organize_results raw query).sections ∧
    (organize_results raw query).total_valid =
      (organize_results raw query).sections.length +
        (organize_results raw query).judgments.length ∧
    ((organize_results raw query).sufficient = true ↔
      1 ≤ (organize_results raw query).total_valid) := by
  refine ⟨?_, ?_, ?_, ?_, rfl, ?_⟩
  · exact List.length_take_le 10 _
  · exact List.length_take_le 5 _
  · intro p hp
    have hp1 : p ∈ sortDesc ((remove_duplicates raw.sections).filter
        validate_section |>.map (fun s => (s, calculate_relevance s query))) :=
      List.mem_of_mem_take hp
    have hp2 := mem_sortDesc hp1
    obtain ⟨s, hs, hps⟩ := List.mem_map.mp hp2
    have hv : validate_section s = true := (List.mem_filter.mp hs).2
    simp only [validate_section, Bool.and_eq_true, Bool.or_eq_true,
      decide_eq_true_eq] at hv
    obtain ⟨⟨⟨hl, hn⟩, hto⟩, -⟩ := hv
    have hps1 : p.1 = s := by rw [← hps]
    have hps2 : p.2 = calculate_relevance s query := by rw [← hps]
    have hlow : 50 ≤ calculate_relevance s query := by
      simp only [calculate_relevance]
      omega
    have hhigh : calculate_relevance s query ≤ 100 := by
      simp only [calculate_relevance]
      omega
    refine ⟨hps1 ▸ hl, hps1 ▸ hn, ?_, by rw [hps2, hps1], ?_, ?_⟩
    · rw [hps1]
      rcases hto with h | h
      · exact Or.inl h
      · exact Or.inr h
    · rw [hps2]; exact hlow
    · rw [hps2]; exact hhigh
  · exact (sortDesc_sorted _).sublist (List.take_sublist 10 _)
  · simp [organize_results]

-- ---------------------------------------------------------------------------
-- search_orchestrator.py : configuration table
-- ---------------------------------------------------------------------------

/-- One `DOCUMENT_SECTIONS` config (the unread `context_note` is omitted;
missing keys are empty lists / `none`). -/
structure DocConfig where
  title : Option (List Char)
  required : List (List Char × List Char)
  keywords : List (List Char)
  law_names : List (List Char)
  order_rules : List (Nat × Nat)
deriving DecidableEq

/-- `DOCUMENT_SECTIONS`, in insertion order. -/
def DOCUMENT_SECTIONS : List (List Char × DocConfig) :=
  [(cs "Bail Petition (Post-Arrest)",
    ⟨some (cs "Bail Petition (Post-Arrest)"),
     [(cs "CrPC", cs "497"), (cs "CrPC", cs "498"), (cs "CrPC", cs "496"),
      (cs "CrPC", cs "499")],
     [cs "bail", cs "non-bailable", cs "arrest", cs "custody", cs "remand"],
     [], []⟩),
   (cs "Bail Petition (Pre-Arrest)",
    ⟨some (cs "Bail Petition (Pre-Arrest/Anticipatory)"),
     [(cs "CrPC", cs "498"), (cs "CrPC", cs "497")],
     [cs "anticipatory", cs "bail", cs "apprehension", cs "FIR"], [], []⟩),
   (cs "Legal Notice",
    ⟨some (cs "Legal Notice"), [],
     [cs "notice", cs "demand", cs "compliance", cs "breach", cs "nuisance",
      cs "trespass"], [], []⟩),
   (cs "Suit for Recovery",
    ⟨some (cs "Suit for Recovery of Money"),
     [(cs "CPC", cs "9"), (cs "CPC", cs "10"), (cs "CPC", cs "11")],
     [cs "recovery", cs "money", cs "debt", cs "decree", cs "damages"],
     [], []⟩),
   (cs "Stay Application",
    ⟨some (cs "Stay Application"), [],
     [cs "stay", cs "injunction", cs "interim relief", cs "status quo"],
     [], [(39, 1), (39, 2)]⟩),
   (cs "Divorce Deed (Talaq-nama)",
    ⟨some (cs "Suit for Dissolution of Marriage (Khula)"),
     [(cs "MFLO", cs "7"), (cs "MFLO", cs "8"), (cs "MFLO", cs "9"),
      (cs "MFLO", cs "10")],
     [cs "khula", cs "talaq", cs "divorce", cs "dissolution", cs "marriage",
      cs "mehr", cs "dower"],
     [cs "Muslim Family Laws", cs "Dissolution of Muslim Marriages"], []⟩),
   (cs "Custody Petition",
    ⟨some (cs "Child Custody Petition (Hizanat)"), [],
     [cs "custody", cs "child", cs "guardian", cs "hizanat", cs "welfare",
      cs "minor"],
     [cs "Guardians and Wards Act"], []⟩),
   (cs "Cheque Dishonour",
    ⟨some (cs "Complaint under Section 489-F PPC"),
     [(cs "PPC", cs "489F"), (cs "PPC", cs "489")],
     [cs "cheque", cs "dishonour", cs "bounce", cs "bank", cs "fraud"],
     [], []⟩),
   (cs "Quashing FIR",
    ⟨some (cs "Petition for Quashing FIR"),
     [(cs "CrPC", cs "561A"), (cs "Constitution", cs "199")],
     [cs "quash", cs "FIR", cs "mala fide", cs "abuse of process"], [], []⟩),
   (cs "Writ Petition",
    ⟨some (cs "Constitutional Writ Petition"),
     [(cs "Constitution", cs "199"), (cs "Constitution", cs "184"),
      (cs "Constitution", cs "4")],
     [cs "fundamental rights", cs "writ", cs "mandamus", cs "certiorari",
      cs "habeas corpus"], [], []⟩),
   (cs "bail_post_arrest",
    ⟨some (cs "Bail Petition (Post-Arrest)"),
     [(cs "CrPC", cs "497"), (cs "CrPC", cs "498")],
     [cs "bail", cs "non-bailable", cs "arrest"], [], []⟩),
   (cs "bail_pre_arrest",
    ⟨some (cs "Bail Petition (Pre-Arrest/Anticipatory)"),
     [(cs "CrPC", cs "498")], [cs "anticipatory", cs "bail"], [], []⟩),
   (cs "legal_notice",
    ⟨some (cs "Legal Notice"), [(cs "CPC", cs "80")],
     [cs "notice", cs "demand"], [], []⟩),
   (cs "writ_petition",
    ⟨some (cs "Constitutional Writ Petition"),
     [(cs "Constitution", cs "199"), (cs "Constitution", cs "4")],
     [cs "fundamental rights", cs "writ"], [], []⟩),
   (cs "suit_recovery",
    ⟨some (cs "Suit for Recovery of Money"), [(cs "CPC", cs "9")],
     [cs "recovery", cs "money", cs "debt"], [], []⟩),
   (cs "divorce_khula",
    ⟨some (cs "Suit for Dissolution of Marriage (Khula)"), [],
     [cs "khula", cs "dissolution", cs "marriage"],
     [cs "Muslim Family Laws", cs "Dissolution of Muslim Marriages"], []⟩),
   (cs "divorce_talaq",
    ⟨some (cs "Talaq (Divorce by Husband)"), [],
     [cs "talaq", cs "divorce"], [cs "Muslim Family Laws"], []⟩),
   (cs "rent_petition",
    ⟨some (cs "Rent Petition / Ejectment"), [(cs "CPC", cs "13")],
     [cs "rent", cs "tenant", cs "ejectment"], [], []⟩),
   (cs "stay_application",
    ⟨some (cs "Stay Application"), [],
     [cs "stay", cs "injunction"], [], [(39, 1), (39, 2)]⟩),
   (cs "cheque_dishonour",
    ⟨some (cs "Complaint under Section 489-F PPC"), [(cs "PPC", cs "489F")],
     [cs "cheque", cs "dishonour"], [], []⟩),
   (cs "custody_petition",
    ⟨some (cs "Child Custody Petition (Hizanat)"), [],
     [cs "custody", cs "child", cs "guardian"],
     [cs "Guardians and Wards Act"], []⟩),
   (cs "quashing_fir",
    ⟨some (cs "Petition for Quashing FIR"), [(cs "CrPC", cs "561A")],
     [cs "quash", cs "fir"], [], []⟩),
   (cs "maintenance",
    ⟨some (cs "Suit for Maintenance"), [],
     [cs "maintenance", cs "nafaqa"],
     [cs "Muslim Family Laws", cs "Family Courts Act"], []⟩)]

/-- Config lookup with the partial-match fallback of `search_for_document`. -/
def docConfigFor (category : List Char) : DocConfig :=
  match DOCUMENT_SECTIONS.find? (fun p => p.1 = category) with
  | some p => p.2
  | none =>
    match DOCUMENT_SECTIONS.find? (fun p =>
        containsSub (lowerL category) (lowerL p.1) ||
        containsSub (lowerL p.1) (lowerL category)) with
    | some p => p.2
    | none => ⟨none, [], [], [], []⟩

-- ---------------------------------------------------------------------------
-- search_orchestrator.py : extract_references_from_text
-- ---------------------------------------------------------------------------

/-- Optional trailing letter `[A-Z]?` (IGNORECASE) after digits, candidates
in greedy order. -/
def numLetterCands (d r : List Char) : List (List Char × List Char) :=
  match r with
  | c :: t => if c.isAlpha then [(d ++ [c], t), (d, r)] else [(d, r)]
  | [] => [(d, r)]

/-- Orchestrator pattern `(?:section|sec|u/s)\s*(\d+[A-Z]?)\s*(crpc|ppc|cpc)`. -/
def matchO1 (s : List Char) : Option ((List Char × List Char) × List Char) :=
  let kwRests :=
    (match litCI (cs "section") s with
     | some r => [r]
     | none => []) ++
    (match litCI (cs "sec") s with
     | some r => [r]
     | none => []) ++
    (match litCI (cs "u/s") s with
     | some r => [r]
     | none => [])
  kwRests.findSome? (fun r1 =>
    match spanDigits (wsMany r1) with
    | ([], _) => none
    | (d, r) =>
      (numLetterCands d r).findSome? (fun g1r =>
        let r3 := wsMany g1r.2
        let lawTok : Option (List Char × List Char) :=
          match litTok (cs "crpc") r3 with
          | some a => some a
          | none =>
            match litTok (cs "ppc") r3 with
            | some a => some a
            | none => litTok (cs "cpc") r3
        lawTok.map (fun lawr => ((g1r.1, lawr.1), lawr.2))))

/-- Orchestrator pattern `\b(\d+[A-Z]?)\s+(ppc|crpc|cpc)\b`. -/
def matchO2 (prevW : Bool) (s : List Char) :
    Option ((List Char × List Char) × List Char) :=
  if prevW then none
  else
    match spanDigits s with
    | ([], _) => none
    | (d, r) =>
      (numLetterCands d r).findSome? (fun g1r =>
        (ws1 g1r.2).bind (fun r3 =>
          (matchLawTok [cs "ppc", cs "crpc", cs "cpc"] r3).map
            (fun lawr => ((g1r.1, lawr.1), lawr.2))))

/-- Orchestrator pattern `order\s*([ivxlc]+|\d+)\s*rule\s*(\d+)`. -/
def matchO4 (s : List Char) : Option ((List Char × List Char) × List Char) :=
  (litCI (cs "order") s).bind (fun r1 =>
  (ivxlcOrDigits (wsMany r1)).bind (fun g1r =>
  (litCI (cs "rule") (wsMany g1r.2)).bind (fun r5 =>
  match spanDigits (wsMany r5) with
  | ([], _) => none
  | (d, r7) => some ((g1r.1, d), r7))))

structure ExtractedRefs where
  sections : List (List Char × List Char)
  articles : List (List Char)
  orders : List (List Char × List Char)
deriving DecidableEq

/-- `extract_references_from_text`: sections as `(number, law)` upper-cased;
the second (direct) pattern appends only refs not already present. -/
def extract_references_from_text (text : List Char) : ExtractedRefs :=
  let tl := lowerL text
  let secs1 := (findIter matchO1 tl).map (fun g => (upperL g.1, upperL g.2))
  let direct := (findIterPrev matchO2 tl).map (fun g => (upperL g.1, upperL g.2))
  ⟨direct.foldl (fun acc r => if r ∈ acc then acc else acc ++ [r]) secs1,
   findIter matchV2 tl,
   (findIter matchO4 tl).map (fun g => (g.1, g.2))⟩

-- ---------------------------------------------------------------------------
-- local_search.py smart_search and the environment of DB-bound functions
-- ---------------------------------------------------------------------------

def assocLookup (m : List (List Char × Nat)) (k : List Char) : Option Nat :=
  (m.find? (fun p => p.1 = k)).map (fun p => p.2)

/-- The roman map of `smart_search` (i..xl). -/
def smartRomanMap : List (List Char × Nat) :=
  [(cs "i", 1), (cs "ii", 2), (cs "iii", 3), (cs "iv", 4), (cs "v", 5),
   (cs "vi", 6), (cs "vii", 7), (cs "viii", 8), (cs "ix", 9), (cs "x", 10),
   (cs "xi", 11), (cs "xii", 12), (cs "xiii", 13), (cs "xiv", 14),
   (cs "xv", 15), (cs "xvi", 16), (cs "xvii", 17), (cs "xviii", 18),
   (cs "xix", 19), (cs "xx", 20), (cs "xxi", 21), (cs "xxii", 22),
   (cs "xxiii", 23), (cs "xxiv", 24), (cs "xxv", 25), (cs "xxvi", 26),
   (cs "xxvii", 27), (cs "xxviii", 28), (cs "xxix", 29), (cs "xxx", 30),
   (cs "xxxi", 31), (cs "xxxii", 32), (cs "xxxiii", 33), (cs "xxxiv", 34),
   (cs "xxxv", 35), (cs "xxxvi", 36), (cs "xxxvii", 37), (cs "xxxviii", 38),
   (cs "xxxix", 39), (cs "xl", 40)]

/-- The smaller roman map of `search_for_document`'s step 4. -/
def orchRomanMap : List (List Char × Nat) :=
  [(cs "i", 1), (cs "ii", 2), (cs "iii", 3), (cs "iv", 4), (cs "v", 5),
   (cs "vi", 6), (cs "vii", 7), (cs "viii", 8), (cs "ix", 9), (cs "x", 10),
   (cs "xi", 11), (cs "xii", 12), (cs "xiii", 13), (cs "xiv", 14),
   (cs "xv", 15), (cs "xvi", 16), (cs "xvii", 17), (cs "xviii", 18),
   (cs "xix", 19), (cs "xx", 20), (cs "xxi", 21), (cs "xxxix", 39),
   (cs "xl", 40)]

/-- The external-search result dict (only the keys the orchestrator reads). -/
structure ExtResult where
  success : Bool
  sections : List SectionItem
deriving DecidableEq

/-- The DB- and network-bound collaborators of the orchestrator, as an
environment: each is a thin wrapper over a SQL query or the OpenAI call
(`search_for_missing_sections` may raise, modelled by `Except`). -/
structure SearchEnv where
  search_by_section : List Char → List Char → Option SectionItem
  search_by_keywords : List Char → Nat → List SectionItem
  search_by_law_name : List Char → Nat → List SectionItem
  search_cpc_order_rule : Nat → Nat → Option SectionItem
  search_judgments : List Char → Nat → List Judgment
  search_for_missing_sections :
    OrgOut → List Char → List Char → Except (List Char) ExtResult

/-- `re.search`: the first match only. -/
def searchFirst {G : Type} (matchAt : List Char → Option (G × List Char)) :
    Nat → List Char → Option G
  | 0, _ => none
  | _ + 1, [] => none
  | fuel + 1, c :: t =>
    match matchAt (c :: t) with
    | some (g, _) => some g
    | none => searchFirst matchAt fuel t

def reSearch {G : Type} (matchAt : List Char → Option (G × List Char))
    (s : List Char) : Option G :=
  searchFirst matchAt (s.length + 1) s

/-- `smart_search` pattern 1:
`(?:section|sec|u/s)?\s*(\d+[A-Z]?)\s*(crpc|ppc|cpc|constitution)`. -/
def matchS1 (s : List Char) : Option ((List Char × List Char) × List Char) :=
  let kwRests :=
    (match litCI (cs "section") s with
     | some r => [r]
     | none => []) ++
    (match litCI (cs "sec") s with
     | some r => [r]
     | none => []) ++
    (match litCI (cs "u/s") s with
     | some r => [r]
     | none => []) ++
    [s]
  kwRests.findSome? (fun r1 =>
    match spanDigits (wsMany r1) with
    | ([], _) => none
    | (d, r) =>
      (numLetterCands d r).findSome? (fun g1r =>
        let r3 := wsMany g1r.2
        let lawTok : Option (List Char × List Char) :=
          match litTok (cs "crpc") r3 with
          | some a => some a
          | none =>
            match litTok (cs "ppc") r3 with
            | some a => some a
            | none =>
              match litTok (cs "cpc") r3 with
              | some a => some a
              | none => litTok (cs "constitution") r3
        lawTok.map (fun lawr => ((g1r.1, lawr.1), lawr.2))))

structure SmartOut where
  sections : List SectionItem
  judgments : List Judgment
  total_found : Nat
  sufficient : Bool
deriving DecidableEq

/-- `local_search.smart_search` over the environment. -/
def smart_search (env : SearchEnv) (query : List Char) : SmartOut :=
  let ql := lowerL query
  let s1 :=
    match reSearch matchS1 ql with
    | some g =>
      (match env.search_by_section (upperL g.2) g.1 with
       | some r => if r.found then [r] else []
       | none => [])
    | none => []
  let s2 :=
    match reSearch matchV2 ql with
    | some num =>
      (match env.search_by_section (cs "Constitution") num with
       | some r => if r.found then [r] else []
       | none => [])
    | none => []
  let s3 :=
    match reSearch matchO4 ql with
    | some g =>
      let onum :=
        match assocLookup smartRomanMap (lowerL g.1) with
        | some n => n
        | none => if g.1 ≠ [] && g.1.all Char.isDigit then natVal g.1 else 0
      if onum > 0 then
        (match env.search_cpc_order_rule onum (natVal g.2) with
         | some r => if r.found then [r] else []
         | none => [])
      else []
    | none => []
  let sections := s1 ++ s2 ++ s3
  let sections :=
    if sections = [] then
      (env.search_by_keywords query 5).filter (fun r => r.found)
    else sections
  let judgments := (env.search_judgments query 3).filter (fun j => j.found)
  ⟨sections, judgments, sections.length + judgments.length,
   decide (sections.length + judgments.length ≥ 1)⟩

/-- `" ".join`. -/
def joinSpace : List (List Char) → List Char
  | [] => []
  | [x] => x
  | x :: t => x ++ ' ' :: joinSpace t

/-- Steps 1–5 of `search_for_document`: required sections, law-name search,
order/rules, user references, keyword search. -/
def gatherLocal (env : SearchEnv) (cfg : DocConfig) (facts : List Char) :
    List SectionItem :=
  let s1 := cfg.required.foldl (fun acc p =>
      match env.search_by_section p.1 p.2 with
      | some r => if r.found then acc ++ [r] else acc
      | none => acc) []
  let s2 := cfg.law_names.foldl (fun acc n =>
      acc ++ (env.search_by_law_name n 5).filter (fun r => r.found)) []
  let s3 := cfg.order_rules.foldl (fun acc p =>
      match env.search_cpc_order_rule p.1 p.2 with
      | some r => if r.found then acc ++ [r] else acc
      | none => acc) []
  let refs := extract_references_from_text facts
  let s4a := refs.sections.foldl (fun acc p =>
      match env.search_by_section p.2 p.1 with
      | some r => if r.found then acc ++ [r] else acc
      | none => acc) []
  let s4b := refs.articles.foldl (fun acc a =>
      match env.search_by_section (cs "Constitution") a with
      | some r => if r.found then acc ++ [r] else acc
      | none => acc) []
  let s4c := refs.orders.foldl (fun acc o =>
      let onum :=
        if o.1 ≠ [] && o.1.all Char.isDigit then natVal o.1
        else
          match assocLookup orchRomanMap (lowerL o.1) with
          | some n => n
          | none => 0
      if onum > 0 then
        (match env.search_cpc_order_rule onum (natVal o.2) with
         | some r => if r.found then acc ++ [r] else acc
         | none => acc)
      else acc) []
  let s5 :=
    if cfg.keywords ≠ [] then
      (env.search_by_keywords (joinSpace cfg.keywords) 3).filter
        (fun r => r.found)
    else []
  s1 ++ s2 ++ s3 ++ s4a ++ s4b ++ s4c ++ s5

/-- The final bundle of `search_for_document`: organized fields plus the
category/external metadata (`external_used` is `none` when the code leaves
the key unset). -/
structure SearchOut where
  query : List Char
  sections : List (SectionItem × Option Nat)
  judgments : List Judgment
  formatted_for_ai : List Char
  total_valid : Nat
  sufficient : Bool
  category : List Char
  document_title : List Char
  needs_external : Bool
  external_used : Option Bool
  external_error : Option (List Char)
  external_sections : Option Nat
deriving DecidableEq

/-- Step 8 of `search_for_document`: the external fallback when fewer than 3
valid results were organized, with its exception handler. -/
def finishExternal (env : SearchEnv) (org : OrgOut)
    (category facts title : List Char) : SearchOut :=
  let base : SearchOut :=
    ⟨org.query, org.sections.map (fun p => (p.1, some p.2)), org.judgments,
     org.formatted_for_ai, org.total_valid, org.sufficient, category, title,
     !org.sufficient, none, none, none⟩
  if org.total_valid < 3 then
    match env.search_for_missing_sections org category facts with
    | Except.error e =>
      ⟨base.query, base.sections, base.judgments, base.formatted_for_ai,
       base.total_valid, base.sufficient, category, title,
       base.needs_external, some false, some e, none⟩
    | Except.ok ext =>
      if ext.success && ext.sections ≠ [] then
        let newSections := base.sections ++ ext.sections.map (fun s => (s, none))
        ⟨base.query, newSections, base.judgments,
         base.formatted_for_ai ++
           ext.sections.flatMap (fun s =>
             cs "\n\n--- External Source ---\n" ++ format_section_for_ai s),
         newSections.length, base.sufficient, category, title,
         base.needs_external, some true, none, some ext.sections.length⟩
      else base
  else
    ⟨base.query, base.sections, base.judgments, base.formatted_for_ai,
     base.total_valid, base.sufficient, category, title, base.needs_external,
     some false, none, none⟩

/-- `search_for_document`. -/
def search_for_document (env : SearchEnv) (category facts : List Char) :
    SearchOut :=
  let cfg := docConfigFor category
  let smart := smart_search env facts
  let title := cfg.title.getD category
  let query := title ++ ' ' :: facts.take 100
  let org := organize_results
    ⟨gatherLocal env cfg facts ++ smart.sections, smart.judgments⟩ query
  finishExternal env org category facts title

-- ---------------------------------------------------------------------------
-- C5: graceful degradation with no local results and a failing external call
-- ---------------------------------------------------------------------------

theorem foldl_keepAcc {α β : Type} (step : List β → α → List β)
    (hstep : ∀ acc x, step acc x = acc) :
    ∀ (l : List α) (acc : List β), l.foldl step acc = acc := by
  intro l
  induction l with
  | nil => intro acc; rfl
  | cons x t ih =>
    intro acc
    rw [List.foldl_cons, hstep acc x]
    exact ih acc

/-- Every sub-step of the gathering pipeline contributes nothing when the
corpus-bound environment functions report nothing found. -/
theorem gatherLocal_empty (env : SearchEnv) (cfg : DocConfig)
    (facts : List Char)
    (h1 : ∀ a b r, env.search_by_section a b = some r → r.found = false)
    (h2 : ∀ q n, ∀ r ∈ env.search_by_keywords q n, r.found = false)
    (h3 : ∀ a n, ∀ r ∈ env.search_by_law_name a n, r.found = false)
    (h4 : ∀ o rl r, env.search_cpc_order_rule o rl = some r → r.found = false) :
    gatherLocal env cfg facts = [] := by
  have e1 : ∀ (l : List (List Char × List Char)) (acc : List SectionItem),
      l.foldl (fun acc p =>
        match env.search_by_section p.1 p.2 with
        | some r => if r.found then acc ++ [r] else acc
        | none => acc) acc = acc := by
    refine foldl_keepAcc _ ?_
    intro acc p
    rcases hfx : env.search_by_section p.1 p.2 with _ | r
    · simp
    · simp [h1 _ _ r hfx]
  have e2 : ∀ (l : List (List Char)) (acc : List SectionItem),
      l.foldl (fun acc n =>
        acc ++ (env.search_by_law_name n 5).filter (fun r => r.found)) acc =
        acc := by
    refine foldl_keepAcc _ ?_
    intro acc n
    have : (env.search_by_law_name n 5).filter (fun r => r.found) = [] := by
      apply List.filter_eq_nil_iff.mpr
      intro r hr
      simp [h3 n 5 r hr]
    rw [this, List.append_nil]
  have e3 : ∀ (l : List (Nat × Nat)) (acc : List SectionItem),
      l.foldl (fun acc p =>
        match env.search_cpc_order_rule p.1 p.2 with
        | some r => if r.found then acc ++ [r] else acc
        | none => acc) acc = acc := by
    refine foldl_keepAcc _ ?_
    intro acc p
    rcases hfx : env.search_cpc_order_rule p.1 p.2 with _ | r
    · simp
    · simp [h4 _ _ r hfx]
  have e4a : ∀ (l : List (List Char × List Char)) (acc : List SectionItem),
      l.foldl (fun acc p =>
        match env.search_by_section p.2 p.1 with
        | some r => if r.found then acc ++ [r] else acc
        | none => acc) acc = acc := by
    refine foldl_keepAcc _ ?_
    intro acc p
    rcases hfx : env.search_by_section p.2 p.1 with _ | r
    · simp
    · simp [h1 _ _ r hfx]
  have e4b : ∀ (l : List (List Char)) (acc : List SectionItem),
      l.foldl (fun acc a =>
        match env.search_by_section (cs "Constitution") a with
        | some r => if r.found then acc ++ [r] else acc
        | none => acc) acc = acc := by
    refine foldl_keepAcc _ ?_
    intro acc a
    rcases hfx : env.search_by_section (cs "Constitution") a with _ | r
    · simp
    · simp [h1 _ _ r hfx]
  have e4c : ∀ (l : List (List Char × List Char)) (acc : List SectionItem),
      l.foldl (fun acc o =>
        let onum :=
          if o.1 ≠ [] && o.1.all Char.isDigit then natVal o.1
          else
            match assocLookup orchRomanMap (lowerL o.1) with
            | some n => n
            | none => 0
        if onum > 0 then
          (match env.search_cpc_order_rule onum (natVal o.2) with
           | some r => if r.found then acc ++ [r] else acc
           | none => acc)
        else acc) acc = acc := by
    refine foldl_keepAcc _ ?_
    intro acc o
    simp only []
    generalize (if o.1 ≠ [] && o.1.all Char.isDigit then natVal o.1
      else
        match assocLookup orchRomanMap (lowerL o.1) with
        | some n => n
        | none => 0) = onum
    by_cases hpos : onum > 0
    · rw [if_pos hpos]
      rcases hfx : env.search_cpc_order_rule onum (natVal o.2) with _ | r
      · rfl
      · simp [h4 _ _ r hfx]
    · rw [if_neg hpos]
  have e5 : (if cfg.keywords ≠ [] then
      (env.search_by_keywords (joinSpace cfg.keywords) 3).filter
        (fun r => r.found)
    else []) = [] := by
    split
    · apply List.filter_eq_nil_iff.mpr
      intro r hr
      simp [h2 _ 3 r hr]
    · rfl
  simp only [gatherLocal]
  rw [e1, e2, e3, e4a, e4b, e4c, e5]
  rfl

theorem smart_search_empty (env : SearchEnv) (facts : List Char)
    (h1 : ∀ a b r, env.search_by_section a b = some r → r.found = false)
    (h2 : ∀ q n, ∀ r ∈ env.search_by_keywords q n, r.found = false)
    (h4 : ∀ o rl r, env.search_cpc_order_rule o rl = some r → r.found = false)
    (h5 : ∀ q n, ∀ j ∈ env.search_judgments q n, j.found = false) :
    (smart_search env facts).sections = [] ∧
      (smart_search env facts).judgments = [] := by
  have e1 : (match reSearch matchS1 (lowerL facts) with
      | some g =>
        (match env.search_by_section (upperL g.2) g.1 with
         | some r => if r.found then [r] else []
         | none => [])
      | none => []) = ([] : List SectionItem) := by
    rcases reSearch matchS1 (lowerL facts) with _ | g
    · rfl
    · simp only []
      rcases hfx : env.search_by_section (upperL g.2) g.1 with _ | r
      · rfl
      · simp [h1 _ _ r hfx]
  have e2 : (match reSearch matchV2 (lowerL facts) with
      | some num =>
        (match env.search_by_section (cs "Constitution") num with
         | some r => if r.found then [r] else []
         | none => [])
      | none => []) = ([] : List SectionItem) := by
    rcases reSearch matchV2 (lowerL facts) with _ | num
    · rfl
    · simp only []
      rcases hfx : env.search_by_section (cs "Constitution") num with _ | r
      · rfl
      · simp [h1 _ _ r hfx]
  have e3 : (match reSearch matchO4 (lowerL facts) with
      | some g =>
        let onum :=
          match assocLookup smartRomanMap (lowerL g.1) with
          | some n => n
          | none => if g.1 ≠ [] && g.1.all Char.isDigit then natVal g.1 else 0
        if onum > 0 then
          (match env.search_cpc_order_rule onum (natVal g.2) with
           | some r => if r.found then [r] else []
           | none => [])
        else []
      | none => []) = ([] : List SectionItem) := by
    rcases reSearch matchO4 (lowerL facts) with _ | g
    · rfl
    · simp only []
      generalize (match assocLookup smartRomanMap (lowerL g.1) with
        | some n => n
        | none =>
          if g.1 ≠ [] && g.1.all Char.isDigit then natVal g.1 else 0) = onum
      by_cases hpos : onum > 0
      · rw [if_pos hpos]
        rcases hfx : env.search_cpc_order_rule onum (natVal g.2) with _ | r
        · rfl
        · simp [h4 _ _ r hfx]
      · rw [if_neg hpos]
  have ekw : (env.search_by_keywords facts 5).filter (fun r => r.found) = [] := by
    apply List.filter_eq_nil_iff.mpr
    intro r hr
    simp [h2 _ 5 r hr]
  have ej : (env.search_judgments facts 3).filter (fun j => j.found) = [] := by
    apply List.filter_eq_nil_iff.mpr
    intro j hj
    simp [h5 _ 3 j hj]
  simp only [smart_search]
  rw [e1, e2, e3]
  simp only [List.nil_append, if_pos rfl]
  rw [ekw, ej]
  exact ⟨rfl, rfl⟩

theorem organize_results_nil (q : List Char) :
    organize_results ⟨[], []⟩ q =
      ⟨q, [], [], cs "[NO RELEVANT LAW SECTIONS FOUND IN DATABASE]", 0,
       false⟩ := rfl

/-- C5: when every corpus-bound lookup reports nothing found and the
external fallback raises, `search_for_document` still returns a well-formed
bundle: empty sections and judgments, `sufficient = false`, and
`external_used = false` (the exception is caught and recorded). -/
theorem search_for_document_degrades (env : SearchEnv)
    (category facts : List Char)
    (h1 : ∀ a b r, env.search_by_section a b = some r → r.found = false)
    (h2 : ∀ q n, ∀ r ∈ env.search_by_keywords q n, r.found = false)
    (h3 : ∀ a n, ∀ r ∈ env.search_by_law_name a n, r.found = false)
    (h4 : ∀ o rl r, env.search_cpc_order_rule o rl = some r → r.found = false)
    (h5 : ∀ q n, ∀ j ∈ env.search_judgments q n, j.found = false)
    (h6 : ∀ o c f, ∃ e,
      env.search_for_missing_sections o c f = Except.error e) :
    (search_for_document env category facts).sections = [] ∧
    (search_for_document env category facts).judgments = [] ∧
    (search_for_document env category facts).sufficient = false ∧
    (search_for_document env category facts).external_used = some false := by
  obtain ⟨hs, hj⟩ := smart_search_empty env facts h1 h2 h4 h5
  have hg := gatherLocal_empty env (docConfigFor category) facts h1 h2 h3 h4
  have hsfd : search_for_document env category facts =
      finishExternal env
        (organize_results ⟨[], []⟩
          ((docConfigFor category).title.getD category ++ ' ' :: facts.take 100))
        category facts ((docConfigFor category).title.getD category) := by
    simp only [search_for_document]
    rw [hg, hs, hj, List.nil_append]
  rw [hsfd, organize_results_nil]
  obtain ⟨e, he⟩ := h6
    ⟨(docConfigFor category).title.getD category ++ ' ' :: facts.take 100,
     [], [], cs "[NO RELEVANT LAW SECTIONS FOUND IN DATABASE]", 0, false⟩
    category facts
  simp only [finishExternal]
  rw [if_pos (by decide), he]
  exact ⟨rfl, rfl, rfl, rfl⟩

/-- An environment whose corpus lookups find nothing and whose external
search always raises. -/
def noEnv : SearchEnv :=
  ⟨fun _ _ => none, fun _ _ => [], fun _ _ => [], fun _ _ => none,
   fun _ _ => [], fun _ _ _ => Except.error (cs "connection timeout")⟩

/-- Witness for C5 at a concrete request against the failing environment. -/
theorem search_for_document_degrades_witness :
    (search_for_document noEnv (cs "Legal Notice")
        (cs "dispute over boundary wall")).sections = [] ∧
    (search_for_document noEnv (cs "Legal Notice")
        (cs "dispute over boundary wall")).judgments = [] ∧
    (search_for_document noEnv (cs "Legal Notice")
        (cs "dispute over boundary wall")).sufficient = false ∧
    (search_for_document noEnv (cs "Legal Notice")
        (cs "dispute over boundary wall")).external_used = some false :=
  search_for_document_degrades noEnv (cs "Legal Notice")
    (cs "dispute over boundary wall")
    (fun _ _ r h => Option.noConfusion h)
    (fun _ _ r h => absurd h (by simp [noEnv]))
    (fun _ _ r h => absurd h (by simp [noEnv]))
    (fun _ _ r h => Option.noConfusion h)
    (fun _ _ j h => absurd h (by simp [noEnv]))
    (fun _ _ _ => ⟨cs "connection timeout", rfl⟩)

end Ptl
